import Mathlib

/-!
# Verification of the Phobit Player metadata extraction engine

A shallow embedding, in Lean 4, of the music-metadata extraction engine of the
phobit-player repository (class `MusicMetadataExtractor` and the M4A atom
walker), together with theorems settling a list of claims about it.

Modelling conventions, chosen to mirror the JavaScript source byte for byte:

* A file buffer (`ArrayBuffer` + `DataView`) is a `List Nat` of byte values.
* A JavaScript string is a `List Nat` of UTF-16 code units (`JStr`).
* `DataView.getUintN` reads are `Except Unit` values: `.error ()` models the
  `RangeError` thrown on an out-of-bounds read; a thrown error propagates to
  the nearest enclosing `try`/`catch` of the source, which is modelled at the
  same place in the embedding.
* JavaScript numbers are `Int` (every value arising here is integral and far
  below 2^53, so double arithmetic is exact), except durations, which are
  produced by `/` and are modelled exactly as fractions (`JSNum`, a
  numerator/denominator pair standing for the real `num / den`); every
  claim-relevant duration value is exactly representable as a double, so the
  exact-fraction idealization agrees with the double computation there.
* The 32-bit operators `<< >> | &` coerce through ToInt32/ToUint32 exactly as
  in JavaScript, including the shift count being taken mod 32.
* `while` loops are given a fuel parameter, one unit per iteration; a result
  of `none` means the fuel ran out.  Termination of the source loops is then
  the theorem that the fuel actually supplied always suffices.
-/

deriving instance DecidableEq for Except

/-- A JavaScript string: its list of UTF-16 code units. -/
abbrev JStr := List Nat

/-- A byte buffer (`ArrayBuffer` contents). -/
abbrev Buf := List Nat

/-- Embed a Lean string literal as a `JStr` (all literals used are BMP-only,
so code points and UTF-16 units coincide). -/
def jstr (s : String) : JStr := s.toList.map Char.toNat

/-- `DataView.getUint8`: throws (`.error`) outside `[0, length)`. -/
def getU8 (buf : Buf) (o : Int) : Except Unit Nat :=
  if 0 ≤ o then
    match buf[o.toNat]? with
    | some b => .ok b
    | none => .error ()
  else .error ()

/-- `DataView.getUint16` (big-endian, the JavaScript default). -/
def getU16 (buf : Buf) (o : Int) : Except Unit Nat :=
  match getU8 buf o, getU8 buf (o + 1) with
  | .ok b0, .ok b1 => .ok (b0 * 256 + b1)
  | _, _ => .error ()

/-- `DataView.getUint32` (big-endian, the JavaScript default; the source
never passes a littleEndian flag). -/
def getU32 (buf : Buf) (o : Int) : Except Unit Nat :=
  match getU8 buf o, getU8 buf (o + 1), getU8 buf (o + 2), getU8 buf (o + 3) with
  | .ok b0, .ok b1, .ok b2, .ok b3 =>
      .ok (b0 * 16777216 + b1 * 65536 + b2 * 256 + b3)
  | _, _, _, _ => .error ()

/-- One end of `ArrayBuffer.slice`: negative indices count from the end,
both ends clamp to `[0, length]`. -/
def jsSliceIdx (len : Nat) (i : Int) : Nat :=
  if i < 0 then len - (-i).toNat else min i.toNat len

/-- `ArrayBuffer.slice(a, b)`: clamping, never throws. -/
def bufSlice (buf : Buf) (a b : Int) : Buf :=
  (buf.take (jsSliceIdx buf.length b)).drop (jsSliceIdx buf.length a)

/-- JavaScript ToUint32. -/
def toUint32 (n : Int) : Nat := (n % 4294967296).toNat

/-- JavaScript ToInt32. -/
def toInt32 (n : Int) : Int :=
  if n % 4294967296 < 2147483648 then n % 4294967296
  else n % 4294967296 - 4294967296

/-- JavaScript `<<`: both operands through ToInt32/ToUint32, shift count
mod 32, result reinterpreted as Int32. -/
def jsShl (a b : Int) : Int :=
  toInt32 ((toUint32 a) <<< (toUint32 b % 32) : Nat)

/-- JavaScript signed `>>`: arithmetic shift = floor division by a power of
two on the Int32 reinterpretation. -/
def jsShr (a b : Int) : Int :=
  Int.fdiv (toInt32 a) ((2 : Int) ^ (toUint32 b % 32))

/-- JavaScript `&` on Int32. -/
def jsAnd (a b : Int) : Int := toInt32 (Nat.land (toUint32 a) (toUint32 b))

/-- JavaScript `|` on Int32. -/
def jsOr (a b : Int) : Int := toInt32 (Nat.lor (toUint32 a) (toUint32 b))

/-- The code units `String.prototype.trim` strips (WhiteSpace ∪ LineTerminator). -/
def isJsSpace (c : Nat) : Bool :=
  c ∈ [9, 10, 11, 12, 13, 32, 160, 5760, 8192, 8193, 8194, 8195, 8196, 8197,
       8198, 8199, 8200, 8201, 8202, 8232, 8233, 8239, 8287, 12288, 65279]

/-- `String.prototype.trim`. -/
def jsTrim (s : JStr) : JStr :=
  ((s.dropWhile isJsSpace).reverse.dropWhile isJsSpace).reverse

/-- `String.prototype.toUpperCase`, on the ASCII range (the source only
compares the result against ASCII keywords). -/
def jsUpper (s : JStr) : JStr :=
  s.map fun c => if 97 ≤ c ∧ c ≤ 122 then c - 32 else c

/-- `String.prototype.toLowerCase`, on the ASCII range (the source only
compares the result against ASCII extensions). -/
def jsLower (s : JStr) : JStr :=
  s.map fun c => if 65 ≤ c ∧ c ≤ 90 then c + 32 else c

/-- JavaScript `a || b` where `a` is a possibly-null string: `null` and the
empty string are falsy. -/
def jsOrStr (a : Option JStr) (b : JStr) : JStr :=
  match a with
  | none => b
  | some s => if s = [] then b else s

/-- A JavaScript number produced by `/`: the exact fraction `num / den`.
Every `den` constructed below is positive. -/
structure JSNum where
  num : Int
  den : Int
deriving Repr, DecidableEq

/-- The number `0` as a `JSNum`. -/
def jsNum0 : JSNum := ⟨0, 1⟩

/-- The rational value of a `JSNum`, for stating theorems about durations. -/
def JSNum.toRat (n : JSNum) : ℚ := (n.num : ℚ) / (n.den : ℚ)

/-- JavaScript `a || b` on numbers: `0` is falsy (`num = 0` iff the value is
zero, since denominators are nonzero). -/
def jsOrNum (a b : JSNum) : JSNum := if a.num = 0 then b else a

/-- Classify a UTF-8 leading byte per the WHATWG decoder: `none` for an
invalid leading byte, otherwise `(bytesNeeded, initial codePoint, lower
boundary, upper boundary)` for the continuation bytes. -/
def utf8Start (b : Nat) : Option (Nat × Nat × Nat × Nat) :=
  if 0xC2 ≤ b ∧ b ≤ 0xDF then some (1, b % 32, 0x80, 0xBF)
  else if b = 0xE0 then some (2, b % 16, 0xA0, 0xBF)
  else if 0xE1 ≤ b ∧ b ≤ 0xEC then some (2, b % 16, 0x80, 0xBF)
  else if b = 0xED then some (2, b % 16, 0x80, 0x9F)
  else if 0xEE ≤ b ∧ b ≤ 0xEF then some (2, b % 16, 0x80, 0xBF)
  else if b = 0xF0 then some (3, b % 8, 0x90, 0xBF)
  else if 0xF1 ≤ b ∧ b ≤ 0xF3 then some (3, b % 8, 0x80, 0xBF)
  else if b = 0xF4 then some (3, b % 8, 0x80, 0x8F)
  else none

/-- A decoded code point as UTF-16 code units (JavaScript string elements). -/
def utf16Units (cp : Nat) : List Nat :=
  if cp < 0x10000 then [cp]
  else [0xD800 + (cp - 0x10000) / 0x400, 0xDC00 + (cp - 0x10000) % 0x400]

/-- The WHATWG UTF-8 decoder body (`TextDecoder('utf-8', {fatal:false})`):
invalid sequences yield U+FFFD.  `pending = some (need, seen, cp, lo, hi)`
is the state inside a multi-byte sequence. -/
def utf8Go : List Nat → Option (Nat × Nat × Nat × Nat × Nat) → List Nat
  | [], none => []
  | [], some _ => [0xFFFD]
  | b :: rest, none =>
      if b ≤ 0x7F then b :: utf8Go rest none
      else match utf8Start b with
        | some (need, cp, lo, hi) => utf8Go rest (some (need, 0, cp, lo, hi))
        | none => 0xFFFD :: utf8Go rest none
  | b :: rest, some (need, seen, cp, lo, hi) =>
      if lo ≤ b ∧ b ≤ hi then
        let cp := cp * 64 + b % 64
        if seen + 1 = need then utf16Units cp ++ utf8Go rest none
        else utf8Go rest (some (need, seen + 1, cp, lo, hi))
      else
        -- invalid continuation: emit U+FFFD and reprocess b in the start state
        0xFFFD ::
          (if b ≤ 0x7F then b :: utf8Go rest none
           else match utf8Start b with
            | some (need, cp, lo, hi) => utf8Go rest (some (need, 0, cp, lo, hi))
            | none => 0xFFFD :: utf8Go rest none)

/-- `TextDecoder('utf-8').decode`: strips a leading BOM (ignoreBOM is false
by default), then decodes with replacement. -/
def utf8Decode (bs : List Nat) : JStr :=
  match bs with
  | 0xEF :: 0xBB :: 0xBF :: rest => utf8Go rest none
  | _ => utf8Go bs none

/-- The standard base64 alphabet as character codes. -/
def b64Tab : List Nat :=
  (jstr "ABCDEFGHIJKLMNOPQRSTUVWXYZabcdefghijklmnopqrstuvwxyz0123456789+/")

/-- One base64 digit (defaulting inside the table keeps the function total;
every index passed is < 64). -/
def b64Digit (k : Nat) : Nat := b64Tab.getD k 65

/-- `btoa` on a list of byte values (the argument is always built by
`String.fromCharCode` over bytes, so each element is < 256). -/
def btoa : List Nat → JStr
  | [] => []
  | [a] => [b64Digit (a / 4), b64Digit (a % 4 * 16), 61, 61]
  | [a, b] => [b64Digit (a / 4), b64Digit (a % 4 * 16 + b / 16), b64Digit (b % 16 * 4), 61]
  | a :: b :: c :: rest =>
      b64Digit (a / 4) :: b64Digit (a % 4 * 16 + b / 16) ::
      b64Digit (b % 16 * 4 + c / 64) :: b64Digit (c % 64) :: btoa rest

/-! ## The metadata record and filename helpers -/

/-- The metadata object assembled by `parseMetadata`.  `cover`, when present,
is the string produced by `arrayBufferToBase64` (see `btoa`). -/
structure Metadata where
  title : JStr
  artist : JStr
  album : JStr
  duration : JSNum
  cover : Option JStr
  coverType : Option JStr
  format : JStr
  filePath : JStr
deriving Repr, DecidableEq

/-- `getFileExtension`: the match of `/\.[^.]+$/`, i.e. the suffix from the
last dot provided at least one character follows it, else the empty string. -/
def getFileExtension (p : JStr) : JStr :=
  if 46 ∈ p then
    let tail := (p.reverse.takeWhile (fun c => c ≠ 46)).reverse
    if tail = [] then [] else 46 :: tail
  else []

/-- `s.replace(/\.[^.]+$/, '')`: strip the final extension. -/
def stripLastExt (s : JStr) : JStr :=
  s.take (s.length - (getFileExtension s).length)

/-- `p.split(/[\\/]/).pop()`: the segment after the last slash/backslash. -/
def jsBaseName (p : JStr) : JStr :=
  (p.reverse.takeWhile (fun c => c ≠ 47 ∧ c ≠ 92)).reverse

/-- `getDefaultTitle`: filename stem, or the fallback when it is empty. -/
def getDefaultTitle (p : JStr) : JStr :=
  let withoutExt := stripLastExt (jsBaseName p)
  if withoutExt = [] then jstr "未知歌曲" else withoutExt

/-- `ext.replace('.', '')`: string replace removes the first occurrence only. -/
def removeFirstDot : JStr → JStr
  | [] => []
  | c :: rest => if c = 46 then rest else c :: removeFirstDot rest

/-- The `defaultMetadata` object built at the top of `parseMetadata`. -/
def defaultMetadata (p : JStr) : Metadata :=
  let ext := jsLower (getFileExtension p)
  { title := getDefaultTitle p
    artist := jstr "未知艺术家"
    album := jstr "未知专辑"
    duration := jsNum0
    cover := none
    coverType := none
    format := jsUpper (removeFirstDot ext)
    filePath := p }

/-! ## Low-level readers of MusicMetadataExtractor -/

/-- `readSyncsafeInt`: `(b0 << 21) | (b1 << 14) | (b2 << 7) | b3`.  Note the
source applies no `& 0x7F` mask to any byte. -/
def readSyncsafeInt (buf : Buf) (o : Int) : Except Unit Int :=
  match getU8 buf o, getU8 buf (o + 1), getU8 buf (o + 2), getU8 buf (o + 3) with
  | .ok b0, .ok b1, .ok b2, .ok b3 =>
      .ok (jsOr (jsOr (jsOr (jsShl b0 21) (jsShl b1 14)) (jsShl b2 7)) b3)
  | _, _, _, _ => .error ()

/-- The Latin-1 loop inside `readString`'s catch block: read up to `n` bytes
through the view (an out-of-bounds read throws), stopping at the first NUL. -/
def readStringGo (buf : Buf) (o : Int) : Nat → Except Unit JStr
  | 0 => .ok []
  | n + 1 =>
    match getU8 buf o with
    | .error _ => .error ()
    | .ok c =>
      if c = 0 then .ok []
      else
        match readStringGo buf (o + 1) n with
        | .error _ => .error ()
        | .ok rest => .ok (c :: rest)

/-- `MusicMetadataExtractor.readString`.  Its try block begins with
`audioData.slice(...)`, but `audioData` is not in scope anywhere in the
script (it is a local of the caller's caller in a different file), so the
try body always raises a ReferenceError before decoding anything and control
always reaches the catch block: the Latin-1 fallback loop over the view,
followed by `trim()`.  Out-of-bounds view reads inside the catch block are
not caught and propagate. -/
def readString (buf : Buf) (o len : Int) : Except Unit JStr :=
  if len ≤ 0 then .ok []
  else
    match readStringGo buf o len.toNat with
    | .error _ => .error ()
    | .ok s => .ok (jsTrim s)

/-- `readTextFrame`: reads the encoding byte and the text via `readString`;
the subsequent `TextDecoder` attempt references the out-of-scope `audioData`
and always lands in the catch block, which returns the `readString` text. -/
def readTextFrame (buf : Buf) (o size : Int) : Except Unit (Option JStr) :=
  if size ≤ 1 then .ok none
  else
    match getU8 buf o with
    | .error _ => .error ()
    | .ok _encoding =>
      match readString buf (o + 1) (size - 1) with
      | .error _ => .error ()
      | .ok text => .ok (some text)

/-- `readAPICFrame`: the entire body is inside `try { ... } catch { return
null }`, and the try block's final statement slices the out-of-scope
identifier `audioData`; every execution therefore ends in an exception
(a ReferenceError there, or an earlier RangeError from a view read) and the
function invariably returns null.  No APIC cover is ever produced. -/
def readAPICFrame (_buf : Buf) (_o _size : Int) : Option (JStr × JStr) := none

/-- `estimateMP3Duration`: `(byteLength - dataOffset) / (128000 / 8)`. -/
def estimateMP3Duration (buf : Buf) (dataOffset : Int) : JSNum :=
  let dataLength : Int := (buf.length : Int) - dataOffset
  let bitrate : Int := 128000
  ⟨dataLength, bitrate / 8⟩

/-! ## Vorbis comments, FLAC picture, WAV INFO -/

/-- The `{title, artist, album}` result object of `parseVorbisComments`. -/
structure VorbisTags where
  title : Option JStr
  artist : Option JStr
  album : Option JStr
deriving Repr, DecidableEq

/-- The body of one comment iteration after decoding: `const [key, value] =
comment.split('=')`, the `if (key && value)` truthiness guard, and the
`toUpperCase` comparisons.  Note each branch assigns unconditionally, so a
later occurrence of a key overwrites an earlier one. -/
def vorbisUpdate (acc : VorbisTags) (comment : JStr) : VorbisTags :=
  match (comment.splitOn 61)[0]?, (comment.splitOn 61)[1]? with
  | some key, some value =>
    if key ≠ [] ∧ value ≠ [] then
      if jsUpper key = jstr "TITLE" then { acc with title := some value }
      else if jsUpper key = jstr "ARTIST" then { acc with artist := some value }
      else if jsUpper key = jstr "ALBUM" then { acc with album := some value }
      else acc
    else acc
  | _, _ => acc

/-- The comment loop of `parseVorbisComments`: at most `count` iterations
(the structural argument), each also guarded by `pos < offset + size - 4`.
A view read that throws is absorbed by the enclosing catch, which returns
the mutations made so far. -/
def vorbisGo (buf : Buf) (endGuard : Int) : Nat → Int → VorbisTags → VorbisTags
  | 0, _, acc => acc
  | count + 1, pos, acc =>
    if pos < endGuard then
      match getU32 buf pos with
      | .error _ => acc
      | .ok commentLength =>
        let commentData := bufSlice buf (pos + 4) (pos + 4 + (commentLength : Int))
        let comment := utf8Decode commentData
        vorbisGo buf endGuard count (pos + 4 + (commentLength : Int)) (vorbisUpdate acc comment)
    else acc

/-- The pre-loop reads of `parseVorbisComments`: vendor-string length (then
skipped) and comment count; `none` when one of the two reads throws, else
the comment count and the position of the first comment. -/
def vorbisHeader (buf : Buf) (offset : Int) : Option (Nat × Int) :=
  match getU32 buf offset with
  | .error _ => none
  | .ok vendorLength =>
    match getU32 buf (offset + 4 + (vendorLength : Int)) with
    | .error _ => none
    | .ok commentCount => some (commentCount, offset + 4 + (vendorLength : Int) + 4)

/-- `parseVorbisComments`: vendor-string skip, comment count, comment loop;
the whole body is try/caught, so errors return the result accumulated so
far (before the loop: all-null). -/
def parseVorbisComments (buf : Buf) (offset size : Int) : VorbisTags :=
  match vorbisHeader buf offset with
  | none => ⟨none, none, none⟩
  | some (commentCount, pos) =>
    vorbisGo buf (offset + size - 4) commentCount pos ⟨none, none, none⟩

/-- `parseFLACPicture` (its `size` parameter is accepted and never used, as
in the source): sequential reads inside try/catch; any view read that
throws yields null; on success the image slice is base64-encoded. -/
def parseFLACPicture (buf : Buf) (offset : Int) (_size : Int) : Option (JStr × JStr) :=
  match getU32 buf (offset + 4) with
  | .error _ => none
  | .ok mimeLength =>
    match readString buf (offset + 4 + 4) (mimeLength : Int) with
    | .error _ => none
    | .ok mime =>
      match getU32 buf (offset + 4 + 4 + (mimeLength : Int)) with
      | .error _ => none
      | .ok descLength =>
        match getU32 buf
            (offset + 4 + 4 + (mimeLength : Int) + 4 + (descLength : Int) + 16) with
        | .error _ => none
        | .ok imageSize =>
          some (btoa (bufSlice buf
                  (offset + 4 + 4 + (mimeLength : Int) + 4 + (descLength : Int) + 16 + 4)
                  (offset + 4 + 4 + (mimeLength : Int) + 4 + (descLength : Int) + 16 + 4
                    + (imageSize : Int))),
                jsOrStr (some mime) (jstr "image/jpeg"))

/-- The `info` object of `parseWAVInfo` (ICRD and IGNR are stored but never
read by the caller). -/
structure WavInfo where
  inam : Option JStr
  iart : Option JStr
  iprd : Option JStr
  icrd : Option JStr
  ignr : Option JStr
deriving Repr, DecidableEq

/-- `info[id] = str` for the recognized ids. -/
def wavInfoSet (info : WavInfo) (id : JStr) (s : JStr) : WavInfo :=
  if id = jstr "INAM" then { info with inam := some s }
  else if id = jstr "IART" then { info with iart := some s }
  else if id = jstr "IPRD" then { info with iprd := some s }
  else if id = jstr "ICRD" then { info with icrd := some s }
  else if id = jstr "IGNR" then { info with ignr := some s }
  else info

/-- The mini-chunk loop of `parseWAVInfo`.  `parseWAVInfo` has no try/catch,
so view reads that throw propagate to the caller. -/
def wavInfoGo (buf : Buf) (endOffset : Int) :
    Nat → Int → WavInfo → Option (Except Unit WavInfo)
  | 0, _, _ => none
  | fuel + 1, pos, info =>
    if pos < endOffset - 8 then
      match getU8 buf pos, getU8 buf (pos + 1), getU8 buf (pos + 2), getU8 buf (pos + 3) with
      | .ok i0, .ok i1, .ok i2, .ok i3 =>
        match getU32 buf (pos + 4) with
        | .error _ => some (.error ())
        | .ok dataSize =>
          if (dataSize : Int) ≤ 0 ∨ pos + 8 + (dataSize : Int) > endOffset then
            some (.ok info)
          else if ([i0, i1, i2, i3] : JStr) ∈
              [jstr "INAM", jstr "IART", jstr "IPRD", jstr "ICRD", jstr "IGNR"] then
            match readString buf (pos + 8) (min ((dataSize : Int) - 1) 256) with
            | .error _ => some (.error ())
            | .ok str =>
              wavInfoGo buf endOffset fuel
                (pos + 8 + (dataSize : Int) + (if dataSize % 2 ≠ 0 then 1 else 0))
                (wavInfoSet info [i0, i1, i2, i3] str)
          else
            wavInfoGo buf endOffset fuel
              (pos + 8 + (dataSize : Int) + (if dataSize % 2 ≠ 0 then 1 else 0)) info
      | _, _, _, _ => some (.error ())
    else some (.ok info)

/-- `parseWAVInfo`. -/
def parseWAVInfo (buf : Buf) (offset size : Int) : Option (Except Unit WavInfo) :=
  wavInfoGo buf (offset + size) (buf.length + 1) offset ⟨none, none, none, none, none⟩

/-- The chunk scan of `findWAVDataSize` (called with `fileSize` equal to the
buffer length, so its guarded reads cannot actually throw; the error case is
kept for faithfulness). -/
def findWAVDataSizeGo (buf : Buf) (fileSize : Int) :
    Nat → Int → Option (Except Unit Int)
  | 0, _ => none
  | fuel + 1, offset =>
    if offset < fileSize - 8 then
      match getU8 buf offset, getU8 buf (offset + 1), getU8 buf (offset + 2),
            getU8 buf (offset + 3) with
      | .ok c0, .ok c1, .ok c2, .ok c3 =>
        match getU32 buf (offset + 4) with
        | .error _ => some (.error ())
        | .ok chunkSize =>
          if ([c0, c1, c2, c3] : JStr) = jstr "data" then some (.ok (chunkSize : Int))
          else
            findWAVDataSizeGo buf fileSize fuel
              (offset + 8 + (chunkSize : Int) + (if chunkSize % 2 ≠ 0 then 1 else 0))
      | _, _, _, _ => some (.error ())
    else some (.ok 0)

/-- `findWAVDataSize`. -/
def findWAVDataSize (buf : Buf) (startOffset fileSize : Int) : Option (Except Unit Int) :=
  findWAVDataSizeGo buf fileSize (buf.length + 1) startOffset

/-! ## The MP3 (ID3v2) parser -/

/-- The switch of the frame loop on one recognized frame id: TIT2/TPE1/TALB
through `readTextFrame` (whose reads can throw), APIC through
`readAPICFrame` (which invariably yields null). -/
def mp3FrameEffect (buf : Buf) (frameId : JStr) (frameDataOffset frameSize : Int)
    (m : Metadata) : Except Unit Metadata :=
  if frameId = jstr "TIT2" then
    match readTextFrame buf frameDataOffset (frameSize - 1) with
    | .error _ => .error ()
    | .ok t => .ok { m with title := jsOrStr t m.title }
  else if frameId = jstr "TPE1" then
    match readTextFrame buf frameDataOffset (frameSize - 1) with
    | .error _ => .error ()
    | .ok t => .ok { m with artist := jsOrStr t m.artist }
  else if frameId = jstr "TALB" then
    match readTextFrame buf frameDataOffset (frameSize - 1) with
    | .error _ => .error ()
    | .ok t => .ok { m with album := jsOrStr t m.album }
  else if frameId = jstr "APIC" then
    match readAPICFrame buf frameDataOffset frameSize with
    | some cd => .ok { m with cover := some cd.1, coverType := some cd.2 }
    | none => .ok m
  else .ok m

/-- The frame loop of `parseMP3`: `while (offset < endOffset - 10)`; frame
header reads, the v3-vs-v2 frame size read, the stop condition, the frame
switch, and the advance `offset += (10 or 6) + frameSize`. -/
def mp3Go (buf : Buf) (version : Nat) (endOffset : Int) :
    Nat → Int → Metadata → Option (Except Unit Metadata)
  | 0, _, _ => none
  | fuel + 1, offset, m =>
    if offset < endOffset - 10 then
      match getU8 buf offset, getU8 buf (offset + 1), getU8 buf (offset + 2),
            getU8 buf (offset + 3) with
      | .ok f0, .ok f1, .ok f2, .ok f3 =>
        match (if version ≥ 3 then (getU32 buf (offset + 4)).map (fun n => (n : Int))
               else readSyncsafeInt buf (offset + 4)) with
        | .error _ => some (.error ())
        | .ok frameSize =>
          if frameSize ≤ 0 ∨ offset + frameSize > endOffset then some (.ok m)
          else
            match mp3FrameEffect buf [f0, f1, f2, f3]
                (offset + (if version ≥ 3 then 10 else 6)) frameSize m with
            | .error _ => some (.error ())
            | .ok m2 =>
              mp3Go buf version endOffset fuel
                (offset + (if version ≥ 3 then 10 else 6) + frameSize) m2
      | _, _, _, _ => some (.error ())
    else some (.ok m)

/-- The frame-loop launch and duration estimate of `parseMP3`, after the
header reads and the optional extended-header skip chose the start offset
(`endOffset = 10 + size` in both uses). -/
def mp3Tail (buf : Buf) (version : Nat) (size offset : Int) (dflt : Metadata) :
    Option (Except Unit Metadata) :=
  match mp3Go buf version (10 + size) (buf.length + 1) offset dflt with
  | none => none
  | some (.error _) => some (.error ())
  | some (.ok m) => some (.ok { m with duration := estimateMP3Duration buf (10 + size) })

/-- `parseMP3`: the `ID3` magic test short-circuits (`&&`), so a read is
only attempted once the previous byte matched; absent magic returns the
defaults copy, and any thrown read propagates to the dispatcher. -/
def parseMP3 (buf : Buf) (dflt : Metadata) : Option (Except Unit Metadata) :=
  match getU8 buf 0 with
  | .error _ => some (.error ())
  | .ok b0 =>
    if b0 = 0x49 then
      match getU8 buf 1 with
      | .error _ => some (.error ())
      | .ok b1 =>
        if b1 = 0x44 then
          match getU8 buf 2 with
          | .error _ => some (.error ())
          | .ok b2 =>
            if b2 = 0x33 then
              match getU8 buf 3, getU8 buf 5, readSyncsafeInt buf 6 with
              | .ok version, .ok flags, .ok size =>
                if jsAnd flags 0x40 ≠ 0 then
                  match getU32 buf 10 with
                  | .error _ => some (.error ())
                  | .ok extSize => mp3Tail buf version size (10 + (extSize : Int)) dflt
                else mp3Tail buf version size 10 dflt
              | _, _, _ => some (.error ())
            else some (.ok dflt)
        else some (.ok dflt)
    else some (.ok dflt)

/-! ## The FLAC parser -/

/-- The per-block-type switch of the FLAC loop (STREAMINFO = 0,
VORBIS_COMMENT = 4, PICTURE = 6; `sampleRate` is `(w10 >> 12) & 0xFFFFF`
and `totalSamples` is `((w13 & 0xF) << 32) | (w10 >> 12)`, written inline). -/
def flacBlockEffect (buf : Buf) (blockType blockSize blockDataOffset : Int)
    (m : Metadata) : Except Unit Metadata :=
  if blockType = 0 then
    match getU32 buf (blockDataOffset + 10), getU32 buf (blockDataOffset + 13) with
    | .ok w10, .ok w13 =>
      .ok { m with duration :=
              if jsAnd (jsShr (w10 : Int) 12) 0xFFFFF > 0 then
                ⟨jsOr (jsShl (jsAnd (w13 : Int) 0xF) 32) (jsShr (w10 : Int) 12),
                 jsAnd (jsShr (w10 : Int) 12) 0xFFFFF⟩
              else jsNum0 }
    | _, _ => .error ()
  else if blockType = 4 then
    .ok { m with
          title := jsOrStr (parseVorbisComments buf blockDataOffset blockSize).title m.title,
          artist := jsOrStr (parseVorbisComments buf blockDataOffset blockSize).artist m.artist,
          album := jsOrStr (parseVorbisComments buf blockDataOffset blockSize).album m.album }
  else if blockType = 6 then
    match parseFLACPicture buf blockDataOffset blockSize with
    | some pd => .ok { m with cover := some pd.1, coverType := some pd.2 }
    | none => .ok m
  else .ok m

/-- Four consecutive `getUint8` calls: all must be in range, as in the
sequential statements of the source, else a `RangeError`. -/
def getU8x4 (buf : Buf) (o : Int) : Except Unit (Nat × Nat × Nat × Nat) :=
  match getU8 buf o, getU8 buf (o + 1), getU8 buf (o + 2), getU8 buf (o + 3) with
  | .ok a, .ok b, .ok c, .ok d => .ok (a, b, c, d)
  | _, _, _, _ => .error ()

/-- The per-iteration header reads of the `parseFLAC` loop: the block type
`blockHeader & 0x7F`, the 24-bit big-endian `blockSize`, and the last-block
flag `(blockHeader & 0x80) !== 0`. -/
def flacHdr (buf : Buf) (o : Int) : Except Unit (Int × Int × Bool) :=
  match getU8x4 buf o with
  | .ok (bh, s1, s2, s3) =>
      .ok (jsAnd (bh : Int) 0x7F,
           jsOr (jsOr (jsShl (s1 : Int) 16) (jsShl (s2 : Int) 8)) (s3 : Int),
           jsAnd (bh : Int) 0x80 != 0)
  | .error _ => .error ()

/-- The metadata-block loop of `parseFLAC`: `while (offset < byteLength)`;
the branch body runs first, then `offset += 4 + blockSize`, then the
last-block flag breaks. -/
def flacGo (buf : Buf) : Nat → Int → Metadata → Option (Except Unit Metadata)
  | 0, _, _ => none
  | fuel + 1, offset, m =>
    if offset < (buf.length : Int) then
      match flacHdr buf offset with
      | .ok (blockType, blockSize, last) =>
        match flacBlockEffect buf blockType blockSize (offset + 4) m with
        | .error _ => some (.error ())
        | .ok m2 =>
          if last then some (.ok m2)
          else flacGo buf fuel (offset + 4 + blockSize) m2
      | .error _ => some (.error ())
    else some (.ok m)
termination_by structural fuel _ _ => fuel

/-- `parseFLAC`: all four signature bytes are read (arguments of
`String.fromCharCode`) before the comparison, so a short buffer throws. -/
def parseFLAC (buf : Buf) (dflt : Metadata) : Option (Except Unit Metadata) :=
  match getU8 buf 0, getU8 buf 1, getU8 buf 2, getU8 buf 3 with
  | .ok s0, .ok s1, .ok s2, .ok s3 =>
    if ([s0, s1, s2, s3] : JStr) = jstr "fLaC" then flacGo buf (buf.length + 1) 4 dflt
    else some (.ok dflt)
  | _, _, _, _ => some (.error ())

/-! ## The WAV parser -/

/-- The per-chunk switch of the WAV loop: the `fmt ` branch (format reads,
`findWAVDataSize` scan, duration) and the LIST/INFO branch; `none` means an
inner loop ran out of fuel. -/
def wavChunkEffect (buf : Buf) (chunkId : JStr) (chunkSize : Nat) (offset : Int)
    (m : Metadata) : Option (Except Unit Metadata) :=
  if chunkId = jstr "fmt " then
    match getU16 buf (offset + 10), getU32 buf (offset + 12),
          getU32 buf (offset + 16), getU16 buf (offset + 22) with
    | .ok _numChannels, .ok _sampleRate, .ok byteRate, .ok _bitsPerSample =>
      match findWAVDataSize buf (offset + 8 + (chunkSize : Int)) (buf.length : Int) with
      | none => none
      | some (.error _) => some (.error ())
      | some (.ok dataChunkSize) =>
        if dataChunkSize > 0 ∧ (byteRate : Int) > 0 then
          some (.ok { m with duration := ⟨dataChunkSize, (byteRate : Int)⟩ })
        else some (.ok m)
    | _, _, _, _ => some (.error ())
  else if chunkId = jstr "LIST" then
    match getU8 buf (offset + 8), getU8 buf (offset + 9), getU8 buf (offset + 10),
          getU8 buf (offset + 11) with
    | .ok l0, .ok l1, .ok l2, .ok l3 =>
      if ([l0, l1, l2, l3] : JStr) = jstr "INFO" then
        match parseWAVInfo buf (offset + 12) ((chunkSize : Int) - 4) with
        | none => none
        | some (.error _) => some (.error ())
        | some (.ok info) =>
          some (.ok { m with title := jsOrStr info.inam m.title,
                             artist := jsOrStr info.iart m.artist,
                             album := jsOrStr info.iprd m.album })
      else some (.ok m)
    | _, _, _, _ => some (.error ())
  else some (.ok m)

/-- The chunk loop of `parseWAV`: `while (offset < byteLength - 8)`, chunk
id and size reads, the chunk switch, then the even-padded advance. -/
def wavGo (buf : Buf) : Nat → Int → Metadata → Option (Except Unit Metadata)
  | 0, _, _ => none
  | fuel + 1, offset, m =>
    if offset < (buf.length : Int) - 8 then
      match getU8x4 buf offset with
      | .ok (c0, c1, c2, c3) =>
        match getU32 buf (offset + 4) with
        | .error _ => some (.error ())
        | .ok chunkSize =>
          match wavChunkEffect buf [c0, c1, c2, c3] chunkSize offset m with
          | none => none
          | some (.error _) => some (.error ())
          | some (.ok m2) =>
            wavGo buf fuel
              (offset + 8 + (chunkSize : Int) + (if chunkSize % 2 ≠ 0 then 1 else 0)) m2
      | .error _ => some (.error ())
    else some (.ok m)

/-- `parseWAV`: the lenient 3-byte `RIF` check, the `WAVE` check at 8, then
the chunk loop from 12. -/
def parseWAV (buf : Buf) (dflt : Metadata) : Option (Except Unit Metadata) :=
  match getU8 buf 0, getU8 buf 1, getU8 buf 2 with
  | .ok r0, .ok r1, .ok r2 =>
    if ([r0, r1, r2] : JStr) = jstr "RIF" then
      match getU8 buf 8, getU8 buf 9, getU8 buf 10, getU8 buf 11 with
      | .ok w0, .ok w1, .ok w2, .ok w3 =>
        if ([w0, w1, w2, w3] : JStr) = jstr "WAVE" then wavGo buf (buf.length + 1) 12 dflt
        else some (.ok dflt)
      | _, _, _, _ => some (.error ())
    else some (.ok dflt)
  | _, _, _ => some (.error ())

/-! ## The M4A atom walker

The source class carries a mutable `this.offset`.  The embedding threads the
offset explicitly: every procedure returns its result object together with
the value of `this.offset` when it returns.  `parse`/`parseTrack`/
`parseMedia`/`parseMediaInfo`/`parseMetadata` are mutually recursive through
`moov` recursion and the fresh sub-walker calls, so they are embedded as a
single step function over a call-frame type, structurally recursive on
fuel. -/

/-- The `result` object of `M4AParser.parse`. -/
structure M4ATags where
  title : Option JStr
  artist : Option JStr
  album : Option JStr
  duration : JSNum
  cover : Option JStr
  coverType : Option JStr
deriving Repr, DecidableEq

/-- The all-null result literal at the top of `parse()`. -/
def m4aInit : M4ATags := ⟨none, none, none, jsNum0, none, none⟩

/-- `M4AParser.readString`: clamping `buffer.slice`, UTF-8 decode with
replacement, `\0` removal, trim.  Nothing in it can throw. -/
def m4aReadString (buf : Buf) (offset length : Int) : JStr :=
  if length ≤ 0 then []
  else jsTrim ((utf8Decode (bufSlice buf offset (offset + length))).filter (fun c => c ≠ 0))

/-- Which of the four subsidiary walkers a frame belongs to. -/
inductive M4AKind
  | track
  | media
  | minf
  | ilst
deriving Repr, DecidableEq

/-- A call frame of the atom walker: `top` is the loop of `parse()` (no end
bound, runs against the buffer length); `entry k` models the first two
statements of the other walkers (`endOffset` computation and `offset += 8`);
`loop k` their `while` loops. -/
inductive M4AFrame
  | top (o : Int) (res : M4ATags)
  | entry (k : M4AKind) (o : Int) (res : M4ATags)
  | loop (k : M4AKind) (endO o : Int) (res : M4ATags)
deriving Repr, DecidableEq

/-- The result object carried by an atom-walker call frame. -/
def M4AFrame.res : M4AFrame → M4ATags
  | .top _ r => r
  | .entry _ _ r => r
  | .loop _ _ _ r => r

def M4AFrame.off : M4AFrame → Int
  | .top o _ => o
  | .entry _ o _ => o
  | .loop _ _ o _ => o

/-- The fuel needed by the totality proof for a call frame: one unit per
iteration of the loop, plus one extra unit for a `top` frame. -/
def m4aNeed (L : Nat) : M4AFrame → Nat
  | .top o _ => L + 3 - min o.toNat (L + 1)
  | .entry _ o _ => L + 2 - min o.toNat (L + 1)
  | .loop _ _ o _ => L + 2 - min o.toNat (L + 1)

/-- One fuel unit per frame evaluation.  Returns the result object and the
final `this.offset`, `.error` for a propagating RangeError, `none` when the
fuel runs out.  In every branch the shared `if (size === 0) break;
this.offset += size;` epilogue is written out after the branch effect. -/
def m4aStep (buf : Buf) : Nat → M4AFrame → Option (Except Unit (M4ATags × Int))
  | 0, _ => none
  | fuel + 1, .top o res =>
    if o < (buf.length : Int) - 8 then
      match getU32 buf o with
      | .error _ => some (.error ())
      | .ok size =>
        match getU8 buf (o + 4), getU8 buf (o + 5), getU8 buf (o + 6), getU8 buf (o + 7) with
        | .ok t0, .ok t1, .ok t2, .ok t3 =>
          if ([t0, t1, t2, t3] : JStr) = jstr "moov" then
            -- fresh sub-walker over the same buffer; Object.assign overwrites
            -- every key of result with the sub-walker's result
            match m4aStep buf fuel (.top (o + 8) m4aInit) with
            | none => none
            | some (.error e) => some (.error e)
            | some (.ok (sub, _)) =>
              if (size : Int) = 0 then some (.ok (sub, o))
              else m4aStep buf fuel (.top (o + (size : Int)) sub)
          else if ([t0, t1, t2, t3] : JStr) = jstr "trak" then
            match m4aStep buf fuel (.entry .track o res) with
            | none => none
            | some (.error e) => some (.error e)
            | some (.ok (res2, o2)) =>
              if (size : Int) = 0 then some (.ok (res2, o2))
              else m4aStep buf fuel (.top (o2 + (size : Int)) res2)
          else if ([t0, t1, t2, t3] : JStr) = jstr "ilst" then
            match m4aStep buf fuel (.entry .ilst o res) with
            | none => none
            | some (.error e) => some (.error e)
            | some (.ok (res2, o2)) =>
              if (size : Int) = 0 then some (.ok (res2, o2))
              else m4aStep buf fuel (.top (o2 + (size : Int)) res2)
          else if ([t0, t1, t2, t3] : JStr) = jstr "mdia" then
            match m4aStep buf fuel (.entry .media o res) with
            | none => none
            | some (.error e) => some (.error e)
            | some (.ok (res2, o2)) =>
              if (size : Int) = 0 then some (.ok (res2, o2))
              else m4aStep buf fuel (.top (o2 + (size : Int)) res2)
          else
            if (size : Int) = 0 then some (.ok (res, o))
            else m4aStep buf fuel (.top (o + (size : Int)) res)
        | _, _, _, _ => some (.error ())
    else some (.ok (res, o))
  | fuel + 1, .entry k o res =>
    match getU32 buf o with
    | .error _ => some (.error ())
    | .ok sz => m4aStep buf fuel (.loop k (o + (sz : Int)) (o + 8) res)
  | fuel + 1, .loop k endO o res =>
    if o < endO - 8 then
      match getU32 buf o with
      | .error _ => some (.error ())
      | .ok size =>
        match getU8 buf (o + 4), getU8 buf (o + 5), getU8 buf (o + 6), getU8 buf (o + 7) with
        | .ok t0, .ok t1, .ok t2, .ok t3 =>
          match k with
          | .track =>
            if ([t0, t1, t2, t3] : JStr) = jstr "mdia" then
              -- fresh sub-walker: result object shared, offset not threaded back
              match m4aStep buf fuel (.entry .media (o + 8) res) with
              | none => none
              | some (.error e) => some (.error e)
              | some (.ok (res2, _)) =>
                if (size : Int) = 0 then some (.ok (res2, o))
                else m4aStep buf fuel (.loop .track endO (o + (size : Int)) res2)
            else
              if (size : Int) = 0 then some (.ok (res, o))
              else m4aStep buf fuel (.loop .track endO (o + (size : Int)) res)
          | .media =>
            if ([t0, t1, t2, t3] : JStr) = jstr "minf" then
              match m4aStep buf fuel (.entry .minf (o + 8) res) with
              | none => none
              | some (.error e) => some (.error e)
              | some (.ok (res2, _)) =>
                if (size : Int) = 0 then some (.ok (res2, o))
                else m4aStep buf fuel (.loop .media endO (o + (size : Int)) res2)
            else
              if (size : Int) = 0 then some (.ok (res, o))
              else m4aStep buf fuel (.loop .media endO (o + (size : Int)) res)
          | .minf =>
            if ([t0, t1, t2, t3] : JStr) = jstr "stsd" then
              -- `this.offset += size` inside the branch, then the epilogue
              if (size : Int) = 0 then some (.ok (res, o + (size : Int)))
              else m4aStep buf fuel (.loop .minf endO (o + (size : Int) + (size : Int)) res)
            else if ([t0, t1, t2, t3] : JStr) = jstr "stts" then
              match getU32 buf (o + 12) with
              | .error _ => some (.error ())
              | .ok entries =>
                if entries > 0 then
                  match getU32 buf (o + 16), getU32 buf (o + 20) with
                  | .ok sampleCount, .ok sampleDuration =>
                    if (size : Int) = 0 then
                      some (.ok ({ res with duration :=
                        ⟨(sampleCount : Int) * (sampleDuration : Int), 10000000⟩ }, o))
                    else
                      m4aStep buf fuel (.loop .minf endO (o + (size : Int))
                        { res with duration :=
                          ⟨(sampleCount : Int) * (sampleDuration : Int), 10000000⟩ })
                  | _, _ => some (.error ())
                else
                  if (size : Int) = 0 then some (.ok (res, o))
                  else m4aStep buf fuel (.loop .minf endO (o + (size : Int)) res)
            else
              if (size : Int) = 0 then some (.ok (res, o))
              else m4aStep buf fuel (.loop .minf endO (o + (size : Int)) res)
          | .ilst =>
            if ([t0, t1, t2, t3] : JStr) = jstr "covr" then
              match getU8 buf (o + 8) with
              | .error _ => some (.error ())
              | .ok firstByte =>
                if (size : Int) = 0 then
                  some (.ok ({ res with
                    cover := some (btoa (bufSlice buf (o + 8) (o + 8 + ((size : Int) - 8)))),
                    coverType := some (if firstByte = 0x89 then jstr "image/png"
                                       else jstr "image/jpeg") }, o))
                else
                  m4aStep buf fuel (.loop .ilst endO (o + (size : Int))
                    { res with
                      cover := some (btoa (bufSlice buf (o + 8) (o + 8 + ((size : Int) - 8)))),
                      coverType := some (if firstByte = 0x89 then jstr "image/png"
                                         else jstr "image/jpeg") })
            else if ([t0, t1, t2, t3] : JStr) = jstr "data" then
              -- the decoded text (`m4aReadString` over the data payload) is
              -- computed by the source and discarded: no key routing exists
              if (size : Int) = 0 then some (.ok (res, o))
              else m4aStep buf fuel (.loop .ilst endO (o + (size : Int)) res)
            else
              if (size : Int) = 0 then some (.ok (res, o))
              else m4aStep buf fuel (.loop .ilst endO (o + (size : Int)) res)
        | _, _, _, _ => some (.error ())
    else some (.ok (res, o))

/-- `M4AParser.parse()` launched on a whole buffer (`this.offset = 0`). -/
def m4aParse (buf : Buf) : Option (Except Unit M4ATags) :=
  match m4aStep buf (buf.length + 3) (.top 0 m4aInit) with
  | none => none
  | some (.error e) => some (.error e)
  | some (.ok (res, _)) => some (.ok res)

/-- `MusicMetadataExtractor.parseM4A`: runs the atom walker inside its own
try/catch (a throw leaves the defaults copy untouched) and merges the tags. -/
def parseM4A (buf : Buf) (dflt : Metadata) : Option Metadata :=
  match m4aParse buf with
  | none => none
  | some (.error _) => some dflt
  | some (.ok tags) =>
    some { dflt with
           title := jsOrStr tags.title dflt.title
           artist := jsOrStr tags.artist dflt.artist
           album := jsOrStr tags.album dflt.album
           duration := jsOrNum tags.duration jsNum0
           cover := tags.cover
           coverType := tags.coverType }

/-! ## The dispatcher -/

/-- The dispatcher's catch: a thrown parse error is converted to the
pre-seeded default record, discarding partial extraction. -/
def catchDefault (dflt : Metadata) : Option (Except Unit Metadata) → Option Metadata
  | none => none
  | some (.error _) => some dflt
  | some (.ok m) => some m

/-- `parseMetadata(audioData, filePath)`: extension dispatch with the
try/catch boundary.  `none` would mean a non-terminating source loop; the
totality theorem shows it never occurs for the fuel supplied. -/
def parseMetadata (buf : Buf) (filePath : JStr) : Option Metadata :=
  if jsLower (getFileExtension filePath) = jstr ".mp3" then
    catchDefault (defaultMetadata filePath) (parseMP3 buf (defaultMetadata filePath))
  else if jsLower (getFileExtension filePath) = jstr ".flac" then
    catchDefault (defaultMetadata filePath) (parseFLAC buf (defaultMetadata filePath))
  else if jsLower (getFileExtension filePath) = jstr ".m4a" then
    parseM4A buf (defaultMetadata filePath)
  else if jsLower (getFileExtension filePath) = jstr ".wav" then
    catchDefault (defaultMetadata filePath) (parseWAV buf (defaultMetadata filePath))
  else some (defaultMetadata filePath)

/-! ## Specification-side definitions used by the claims -/

/-- The sequence of decoded comment strings the vorbis loop consumes, read
from the buffer exactly as `vorbisGo` reads them (same guard, same length
reads, truncated at the same read failure). -/
def vorbisRawComments (buf : Buf) (endGuard : Int) : Nat → Int → List JStr
  | 0, _ => []
  | count + 1, pos =>
    if pos < endGuard then
      match getU32 buf pos with
      | .error _ => []
      | .ok commentLength =>
        utf8Decode (bufSlice buf (pos + 4) (pos + 4 + (commentLength : Int))) ::
          vorbisRawComments buf endGuard count (pos + 4 + (commentLength : Int))
    else []

/-- The comment sequence of a whole VORBIS_COMMENT block, with the vendor
skip and comment count of `parseVorbisComments`. -/
def vorbisComments (buf : Buf) (offset size : Int) : List JStr :=
  match vorbisHeader buf offset with
  | none => []
  | some (commentCount, pos) =>
    vorbisRawComments buf (offset + size - 4) commentCount pos

/-- The TITLE value a comment contributes, if any: `key=value` split, the
truthiness guard, and the case-insensitive key comparison of the loop body. -/
def vorbisTitleOf (s : JStr) : Option JStr :=
  match (s.splitOn 61)[0]?, (s.splitOn 61)[1]? with
  | some key, some value =>
    if key ≠ [] ∧ value ≠ [] ∧ jsUpper key = jstr "TITLE" then some value else none
  | _, _ => none

/-- The ARTIST value a comment contributes, if any. -/
def vorbisArtistOf (s : JStr) : Option JStr :=
  match (s.splitOn 61)[0]?, (s.splitOn 61)[1]? with
  | some key, some value =>
    if key ≠ [] ∧ value ≠ [] ∧ jsUpper key = jstr "ARTIST" then some value else none
  | _, _ => none

/-- The ALBUM value a comment contributes, if any. -/
def vorbisAlbumOf (s : JStr) : Option JStr :=
  match (s.splitOn 61)[0]?, (s.splitOn 61)[1]? with
  | some key, some value =>
    if key ≠ [] ∧ value ≠ [] ∧ jsUpper key = jstr "ALBUM" then some value else none
  | _, _ => none

/-- A character of a base64 string: an alphabet character or padding. -/
def isB64Char (c : Nat) : Prop := c ∈ b64Tab ∨ c = 61

/-- The invariant tying a record's cover to its cover MIME: both absent or
both present, and a present cover is base64 text (`btoa` output). -/
def coverPairOk (c t : Option JStr) : Prop :=
  (c.isSome ↔ t.isSome) ∧ ∀ s, c = some s → ∀ ch ∈ s, isB64Char ch

/-! ## Concrete buffers used in counterexamples and witnesses -/

/-- A FLAC file whose single STREAMINFO block encodes, at the standard
STREAMINFO bit positions, sampleRate = 44100 (20 bits, bytes 10-12 of the
body) and totalSamples = 441000 (36 bits, low nibble of byte 13 plus bytes
14-17); minBlock/maxBlock/frame sizes and MD5 are zero. -/
def flacStreaminfoBuf : Buf :=
  [0x66, 0x4C, 0x61, 0x43,          -- "fLaC"
   0x80, 0, 0, 34] ++               -- last-block flag, type 0, length 34
  [0, 0,  0, 0,  0, 0, 0,  0, 0, 0, -- block/frame sizes
   0x0A, 0xC4, 0x42, 0xF0,          -- sampleRate 44100, 2ch, 16 bps
   0x00, 0x06, 0xBA, 0x28] ++       -- totalSamples 441000
  List.replicate 16 0               -- MD5

/-- A minimal ID3v2.3 tag: TIT2 "Test", TPE1 "Artist", TALB "Album", and an
APIC frame (MIME "image/jpeg", picture type 3, empty description) whose
image payload is a 10-byte JPEG stub. -/
def id3SyntheticBuf : Buf :=
  [73, 68, 51, 3, 0, 0, 0, 0, 0, 82] ++          -- "ID3", v2.3, tag size 82
  (jstr "TIT2") ++ [0, 0, 0, 5, 0, 0] ++ ([0] ++ jstr "Test") ++
  (jstr "TPE1") ++ [0, 0, 0, 7, 0, 0] ++ ([0] ++ jstr "Artist") ++
  (jstr "TALB") ++ [0, 0, 0, 6, 0, 0] ++ ([0] ++ jstr "Album") ++
  (jstr "APIC") ++ [0, 0, 0, 24, 0, 0] ++
    ([0] ++ jstr "image/jpeg" ++ [0] ++ [3] ++ [0] ++
     [0xFF, 0xD8, 0xFF, 0xE0, 1, 2, 3, 4, 5, 0xD9])

/-- The 10-byte image payload embedded in `id3SyntheticBuf`. -/
def jpegStubBytes : Buf := [0xFF, 0xD8, 0xFF, 0xE0, 1, 2, 3, 4, 5, 0xD9]

/-- A FLAC file whose single VORBIS_COMMENT block carries two comments with
the same key: `TITLE=A` then `TITLE=B` (lengths in the byte order the code
reads them). -/
def flacVorbisTwiceBuf : Buf :=
  [0x66, 0x4C, 0x61, 0x43,
   0x84, 0, 0, 34] ++               -- last-block flag, type 4, length 34
  ([0, 0, 0, 0] ++                  -- vendor length 0
   [0, 0, 0, 2] ++                  -- comment count 2
   [0, 0, 0, 7] ++ jstr "TITLE=A" ++
   [0, 0, 0, 7] ++ jstr "TITLE=B")

/-- A FLAC file whose single PICTURE block has MIME "image/png", empty
description, zero width/height/depth/colors, and a 1-byte image payload
`[0x00]`. -/
def flacPictureBuf : Buf :=
  [0x66, 0x4C, 0x61, 0x43,
   0x86, 0, 0, 42] ++               -- last-block flag, type 6, length 42
  ([0, 0, 0, 0] ++                  -- picture type
   [0, 0, 0, 9] ++ jstr "image/png" ++
   [0, 0, 0, 0] ++                  -- description length 0
   List.replicate 16 0 ++           -- width, height, depth, colors
   [0, 0, 0, 1] ++ [0x00])          -- image length 1, image data

/-- The 44-byte header of the claim's minimal RIFF/WAVE file, all multi-byte
fields little-endian as the RIFF format prescribes: RIFF size 1764036,
`fmt ` chunk of size 16 with PCM, 2 channels, sampleRate 44100, byteRate
176400, blockAlign 4, 16 bits per sample, then a `data` chunk header of
size 1764000. -/
def c4hdr : Buf :=
  jstr "RIFF" ++ [0x44, 0xEB, 0x1A, 0] ++
  jstr "WAVE" ++
  jstr "fmt " ++ [16, 0, 0, 0] ++
  [1, 0] ++ [2, 0] ++ [0x44, 0xAC, 0, 0] ++ [0x10, 0xB1, 0x02, 0] ++
  [4, 0] ++ [16, 0] ++
  jstr "data" ++ [0xA0, 0xEB, 0x1A, 0]

/-- The complete minimal WAV file: header plus 1,764,000 payload bytes
(10 seconds at byteRate 176400). -/
def c4buf : Buf := c4hdr ++ List.replicate 1764000 0

/-! ## Base64 output lemmas -/

theorem b64Digit_mem (k : Nat) : b64Digit k ∈ b64Tab := by
  unfold b64Digit
  rw [List.getD_eq_getElem?_getD]
  rcases h : b64Tab[k]? with _ | x
  · decide
  · simp only [Option.getD_some]
    exact List.getElem?_mem h

theorem btoa_b64 : ∀ (l : List Nat), ∀ ch ∈ btoa l, isB64Char ch := by
  intro l
  induction l using btoa.induct with
  | case1 =>
    intro ch h
    simp [btoa] at h
  | case2 a =>
    intro ch h
    rw [btoa] at h
    simp only [List.mem_cons] at h
    rcases h with h | h | h | h | h
    · exact Or.inl (h ▸ b64Digit_mem _)
    · exact Or.inl (h ▸ b64Digit_mem _)
    · exact Or.inr h
    · exact Or.inr h
    · cases h
  | case3 a b =>
    intro ch h
    rw [btoa] at h
    simp only [List.mem_cons] at h
    rcases h with h | h | h | h | h
    · exact Or.inl (h ▸ b64Digit_mem _)
    · exact Or.inl (h ▸ b64Digit_mem _)
    · exact Or.inl (h ▸ b64Digit_mem _)
    · exact Or.inr h
    · cases h
  | case4 a b c rest ih =>
    intro ch h
    rw [btoa] at h
    simp only [List.mem_cons] at h
    rcases h with h | h | h | h | h
    · exact Or.inl (h ▸ b64Digit_mem _)
    · exact Or.inl (h ▸ b64Digit_mem _)
    · exact Or.inl (h ▸ b64Digit_mem _)
    · exact Or.inl (h ▸ b64Digit_mem _)
    · exact ih ch h

/-! ## Basic read lemmas -/

theorem getU8_ok_bound {buf : Buf} {o : Int} {b : Nat} (h : getU8 buf o = .ok b) :
    0 ≤ o ∧ o.toNat < buf.length := by
  unfold getU8 at h
  split at h
  · rcases heq : buf[o.toNat]? with _ | x
    · rw [heq] at h; cases h
    · exact ⟨by assumption, (List.getElem?_eq_some.mp heq).1⟩
  · cases h

theorem getU8_ok_mem {buf : Buf} {o : Int} {b : Nat} (h : getU8 buf o = .ok b) :
    b ∈ buf := by
  unfold getU8 at h
  split at h
  · rcases heq : buf[o.toNat]? with _ | x
    · rw [heq] at h; cases h
    · rw [heq] at h
      cases h
      exact List.getElem?_mem heq
  · cases h

theorem getU8_error_of_le {buf : Buf} {o : Int} (h : (buf.length : Int) ≤ o) :
    getU8 buf o = .error () := by
  unfold getU8
  split
  · rcases heq : buf[o.toNat]? with _ | x
    · rfl
    · exact absurd (List.getElem?_eq_some.mp heq).1 (by omega)
  · rfl

theorem readSyncsafeInt_error {buf : Buf} {o : Int}
    (h : getU8 buf (o + 3) = .error ()) : readSyncsafeInt buf o = .error () := by
  unfold readSyncsafeInt
  rcases getU8 buf o with _ | b0 <;> rcases getU8 buf (o + 1) with _ | b1 <;>
    rcases getU8 buf (o + 2) with _ | b2 <;> rw [h]

/-! ## 32-bit operator lemmas for small operands -/

theorem toUint32_of_small {n : Nat} (h : n < 4294967296) :
    toUint32 (n : Int) = n := by
  unfold toUint32
  omega

theorem toInt32_of_small {n : Nat} (h : n < 2147483648) :
    toInt32 (n : Int) = n := by
  unfold toInt32
  omega

theorem jsShl_of_small {a : Nat} {s : Int} {k : Nat}
    (hs : toUint32 s % 32 = k) (ha : a * 2 ^ k < 2147483648) :
    jsShl (a : Int) s = ((a * 2 ^ k : Nat) : Int) := by
  have ha32 : a < 4294967296 := by
    have h1 : 1 ≤ 2 ^ k := Nat.one_le_two_pow
    calc a = a * 1 := by omega
    _ ≤ a * 2 ^ k := Nat.mul_le_mul_left a h1
    _ < 4294967296 := by omega
  unfold jsShl
  rw [toUint32_of_small ha32, hs, Nat.shiftLeft_eq, toInt32_of_small ha]

theorem lor_lt_pow {a b n : Nat} (ha : a < 2 ^ n) (hb : b < 2 ^ n) :
    a ||| b < 2 ^ n := Nat.bitwise_lt ha hb

theorem jsOr_of_small {a b : Nat} (ha : a < 2147483648) (hb : b < 2147483648) :
    jsOr (a : Int) (b : Int) = (a ||| b : Nat) := by
  have h31 : (2147483648 : Nat) = 2 ^ 31 := by norm_num
  have hl : a ||| b < 2147483648 := by
    rw [h31] at ha hb ⊢
    exact lor_lt_pow ha hb
  unfold jsOr
  rw [toUint32_of_small (by omega), toUint32_of_small (by omega)]
  exact toInt32_of_small hl

/-! ## Claim C5: the syncsafe reader -/

/-- C5, counterexample: a byte with its most significant bit set is *not*
reduced to its low 7 bits: on bytes `80 00 00 00` the reader yields
`0x10000000 = 2^28`, which is not a 28-bit value, refuting both "the MSB of
every byte is ignored" and "the result is strictly less than 2^28". -/
theorem readSyncsafeInt_msb_counterexample :
    readSyncsafeInt [0x80, 0, 0, 0] 0 = .ok 268435456 ∧
      ¬ ((268435456 : Int) < 2 ^ 28) :=
  ⟨by decide, by decide⟩

/-- C5, amended: `readSyncsafeInt` combines the four bytes *unmasked*
(`b0<<21 | b1<<14 | b2<<7 | b3`), so on a byte buffer the value is only
guaranteed to be a nonnegative 29-bit value; it is a 28-bit value whenever
the bytes already have their MSB clear, as a well-formed syncsafe encoding
guarantees. -/
theorem readSyncsafeInt_unmasked_bound (buf : Buf) (o : Int) (v : Int)
    (hbytes : ∀ b ∈ buf, b < 256)
    (h : readSyncsafeInt buf o = .ok v) :
    0 ≤ v ∧ v < 2 ^ 29 ∧ ((∀ b ∈ buf, b < 128) → v < 2 ^ 28) := by
  unfold readSyncsafeInt at h
  rcases h0 : getU8 buf o with _ | b0 <;> rw [h0] at h
  · simp at h
  rcases h1 : getU8 buf (o + 1) with _ | b1 <;> rw [h1] at h
  · simp at h
  rcases h2 : getU8 buf (o + 2) with _ | b2 <;> rw [h2] at h
  · simp at h
  rcases h3 : getU8 buf (o + 3) with _ | b3 <;> rw [h3] at h
  · simp at h
  simp only [] at h
  have hb0 := hbytes b0 (getU8_ok_mem h0)
  have hb1 := hbytes b1 (getU8_ok_mem h1)
  have hb2 := hbytes b2 (getU8_ok_mem h2)
  have hb3 := hbytes b3 (getU8_ok_mem h3)
  have s0 : jsShl (b0 : Int) 21 = ((b0 * 2 ^ 21 : Nat) : Int) :=
    jsShl_of_small (by decide) (by omega)
  have s1 : jsShl (b1 : Int) 14 = ((b1 * 2 ^ 14 : Nat) : Int) :=
    jsShl_of_small (by decide) (by omega)
  have s2 : jsShl (b2 : Int) 7 = ((b2 * 2 ^ 7 : Nat) : Int) :=
    jsShl_of_small (by decide) (by omega)
  have o1 : jsOr ((b0 * 2 ^ 21 : Nat) : Int) ((b1 * 2 ^ 14 : Nat) : Int)
      = ((b0 * 2 ^ 21 ||| b1 * 2 ^ 14 : Nat) : Int) :=
    jsOr_of_small (by omega) (by omega)
  have hx1 : (b0 * 2 ^ 21 ||| b1 * 2 ^ 14 : Nat) < 2 ^ 29 :=
    lor_lt_pow (by omega) (by omega)
  have o2 : jsOr ((b0 * 2 ^ 21 ||| b1 * 2 ^ 14 : Nat) : Int) ((b2 * 2 ^ 7 : Nat) : Int)
      = ((b0 * 2 ^ 21 ||| b1 * 2 ^ 14 ||| b2 * 2 ^ 7 : Nat) : Int) :=
    jsOr_of_small (by omega) (by omega)
  have hx2 : (b0 * 2 ^ 21 ||| b1 * 2 ^ 14 ||| b2 * 2 ^ 7 : Nat) < 2 ^ 29 :=
    lor_lt_pow hx1 (by omega)
  have o3 : jsOr ((b0 * 2 ^ 21 ||| b1 * 2 ^ 14 ||| b2 * 2 ^ 7 : Nat) : Int) ((b3 : Nat) : Int)
      = ((b0 * 2 ^ 21 ||| b1 * 2 ^ 14 ||| b2 * 2 ^ 7 ||| b3 : Nat) : Int) :=
    jsOr_of_small (by omega) (by omega)
  have hx3 : (b0 * 2 ^ 21 ||| b1 * 2 ^ 14 ||| b2 * 2 ^ 7 ||| b3 : Nat) < 2 ^ 29 :=
    lor_lt_pow hx2 (by omega)
  rw [s0, s1, s2, o1, o2, o3] at h
  have hv : v = ((b0 * 2 ^ 21 ||| b1 * 2 ^ 14 ||| b2 * 2 ^ 7 ||| b3 : Nat) : Int) := by
    cases h; rfl
  subst hv
  refine ⟨Int.natCast_nonneg _, by exact_mod_cast hx3, fun h7 => ?_⟩
  have m0 := h7 b0 (getU8_ok_mem h0)
  have m1 := h7 b1 (getU8_ok_mem h1)
  have m2 := h7 b2 (getU8_ok_mem h2)
  have m3 := h7 b3 (getU8_ok_mem h3)
  have k28 : (b0 * 2 ^ 21 ||| b1 * 2 ^ 14 ||| b2 * 2 ^ 7 ||| b3 : Nat) < 2 ^ 28 :=
    lor_lt_pow (lor_lt_pow (lor_lt_pow (by omega) (by omega)) (by omega)) (by omega)
  exact_mod_cast k28

/-- C5, witness of the amended theorem at the byte quadruple `01 02 03 04`. -/
theorem readSyncsafeInt_unmasked_bound_witness :
    0 ≤ (2130308 : Int) ∧ (2130308 : Int) < 2 ^ 29 ∧
      ((∀ b ∈ ([1, 2, 3, 4] : Buf), b < 128) → (2130308 : Int) < 2 ^ 28) :=
  readSyncsafeInt_unmasked_bound [1, 2, 3, 4] 0 2130308 (by decide) (by decide)

/-! ## Claim C3: FLAC STREAMINFO duration -/

/-- C3: on a STREAMINFO block which encodes sampleRate 44100 and
totalSamples 441000 at the standard fixed offsets, the code computes
duration 44110/44100 seconds (`(w13 & 0xF) << 32` is a no-op because the
shift count is taken mod 32, and the second operand of the `|` is the
sample-rate field again, not the low word of the sample count), not the
441000/44100 = 10 seconds the claim requires. -/
theorem flac_streaminfo_duration_bug :
    (parseMetadata flacStreaminfoBuf (jstr "a.flac")).map Metadata.duration
        = some ⟨44110, 44100⟩ ∧
      JSNum.toRat ⟨44110, 44100⟩ ≠ 10 ∧
      (441000 : ℚ) / 44100 = 10 :=
  ⟨by decide, by norm_num [JSNum.toRat], by norm_num⟩

/-! ## Claim C6: the ID3v2 round trip -/

/-- C6: on the synthetic ID3v2.3 tag with TIT2 "Test", TPE1 "Artist", TALB
"Album" and a 10-byte APIC JPEG stub, the code returns title "Tes", artist
"Artis", album "Albu" (the text reader drops the final character of every
text frame: it is called with `frameSize - 1` and then reads `size - 1`
characters) and no cover at all (the APIC reader references the
out-of-scope identifier `audioData` and invariably returns null), not the
claimed "Test"/"Artist"/"Album"/stub-bytes record. -/
theorem id3_roundtrip_bug :
    parseMetadata id3SyntheticBuf (jstr "t.mp3")
        = some { title := jstr "Tes", artist := jstr "Artis", album := jstr "Albu",
                 duration := ⟨0, 16000⟩, cover := none, coverType := none,
                 format := jstr "MP3", filePath := jstr "t.mp3" } ∧
      jstr "Tes" ≠ jstr "Test" ∧
      (none : Option JStr) ≠ some jpegStubBytes :=
  ⟨by decide, by decide, by decide⟩

/-! ## Claim C7: vorbis comment precedence, counterexample -/

/-- C7, counterexample: a VORBIS_COMMENT block carrying `TITLE=A` then
`TITLE=B` yields title "B" — the loop assigns unconditionally, so the first
occurrence does *not* win. -/
theorem vorbis_first_wins_counterexample :
    (parseMetadata flacVorbisTwiceBuf (jstr "x.flac")).map Metadata.title
        = some (jstr "B") ∧
      vorbisComments flacVorbisTwiceBuf 8 34 = [jstr "TITLE=A", jstr "TITLE=B"] ∧
      jstr "B" ≠ jstr "A" :=
  ⟨by decide, by decide, by decide⟩

/-! ## Claim C7: vorbis comment precedence, amended -/

theorem vorbisUpdate_title (acc : VorbisTags) (c : JStr) :
    (vorbisUpdate acc c).title =
      match vorbisTitleOf c with
      | some v => some v
      | none => acc.title := by
  have d1 : jstr "TITLE" ≠ jstr "ARTIST" := by decide
  have d2 : jstr "TITLE" ≠ jstr "ALBUM" := by decide
  have d3 : jstr "ARTIST" ≠ jstr "TITLE" := by decide
  have d4 : jstr "ARTIST" ≠ jstr "ALBUM" := by decide
  have d5 : jstr "ALBUM" ≠ jstr "TITLE" := by decide
  have d6 : jstr "ALBUM" ≠ jstr "ARTIST" := by decide
  unfold vorbisUpdate vorbisTitleOf
  rcases (c.splitOn 61)[0]? with _ | key <;> rcases (c.splitOn 61)[1]? with _ | value <;>
    try rfl
  by_cases h1 : key ≠ []
  case neg => simp [h1]
  by_cases h2 : value ≠ []
  case neg => simp [h1, h2]
  by_cases ht : jsUpper key = jstr "TITLE"
  · simp [h1, h2, ht, d1, d2, d3, d4, d5, d6]
  · by_cases ha : jsUpper key = jstr "ARTIST"
    · simp [h1, h2, ht, ha, d1, d2, d3, d4, d5, d6]
    · by_cases hb : jsUpper key = jstr "ALBUM"
      · simp [h1, h2, ht, ha, hb, d1, d2, d3, d4, d5, d6]
      · simp [h1, h2, ht, ha, hb, d1, d2, d3, d4, d5, d6]

theorem vorbisUpdate_artist (acc : VorbisTags) (c : JStr) :
    (vorbisUpdate acc c).artist =
      match vorbisArtistOf c with
      | some v => some v
      | none => acc.artist := by
  have d1 : jstr "TITLE" ≠ jstr "ARTIST" := by decide
  have d2 : jstr "TITLE" ≠ jstr "ALBUM" := by decide
  have d3 : jstr "ARTIST" ≠ jstr "TITLE" := by decide
  have d4 : jstr "ARTIST" ≠ jstr "ALBUM" := by decide
  have d5 : jstr "ALBUM" ≠ jstr "TITLE" := by decide
  have d6 : jstr "ALBUM" ≠ jstr "ARTIST" := by decide
  unfold vorbisUpdate vorbisArtistOf
  rcases (c.splitOn 61)[0]? with _ | key <;> rcases (c.splitOn 61)[1]? with _ | value <;>
    try rfl
  by_cases h1 : key ≠ []
  case neg => simp [h1]
  by_cases h2 : value ≠ []
  case neg => simp [h1, h2]
  by_cases ht : jsUpper key = jstr "TITLE"
  · simp [h1, h2, ht, d1, d2, d3, d4, d5, d6]
  · by_cases ha : jsUpper key = jstr "ARTIST"
    · simp [h1, h2, ht, ha, d1, d2, d3, d4, d5, d6]
    · by_cases hb : jsUpper key = jstr "ALBUM"
      · simp [h1, h2, ht, ha, hb, d1, d2, d3, d4, d5, d6]
      · simp [h1, h2, ht, ha, hb, d1, d2, d3, d4, d5, d6]

theorem vorbisUpdate_album (acc : VorbisTags) (c : JStr) :
    (vorbisUpdate acc c).album =
      match vorbisAlbumOf c with
      | some v => some v
      | none => acc.album := by
  have d1 : jstr "TITLE" ≠ jstr "ARTIST" := by decide
  have d2 : jstr "TITLE" ≠ jstr "ALBUM" := by decide
  have d3 : jstr "ARTIST" ≠ jstr "TITLE" := by decide
  have d4 : jstr "ARTIST" ≠ jstr "ALBUM" := by decide
  have d5 : jstr "ALBUM" ≠ jstr "TITLE" := by decide
  have d6 : jstr "ALBUM" ≠ jstr "ARTIST" := by decide
  unfold vorbisUpdate vorbisAlbumOf
  rcases (c.splitOn 61)[0]? with _ | key <;> rcases (c.splitOn 61)[1]? with _ | value <;>
    try rfl
  by_cases h1 : key ≠ []
  case neg => simp [h1]
  by_cases h2 : value ≠ []
  case neg => simp [h1, h2]
  by_cases ht : jsUpper key = jstr "TITLE"
  · simp [h1, h2, ht, d1, d2, d3, d4, d5, d6]
  · by_cases ha : jsUpper key = jstr "ARTIST"
    · simp [h1, h2, ht, ha, d1, d2, d3, d4, d5, d6]
    · by_cases hb : jsUpper key = jstr "ALBUM"
      · simp [h1, h2, ht, ha, hb, d1, d2, d3, d4, d5, d6]
      · simp [h1, h2, ht, ha, hb, d1, d2, d3, d4, d5, d6]

theorem vorbisGo_eq_foldl (buf : Buf) (endG : Int) :
    ∀ (count : Nat) (pos : Int) (acc : VorbisTags),
      vorbisGo buf endG count pos acc
        = List.foldl vorbisUpdate acc (vorbisRawComments buf endG count pos) := by
  intro count
  induction count with
  | zero => intro pos acc; rfl
  | succ n ih =>
    intro pos acc
    rw [vorbisGo, vorbisRawComments]
    by_cases hp : pos < endG
    · rw [if_pos hp, if_pos hp]
      rcases getU32 buf pos with _ | len
      · rfl
      · rw [List.foldl_cons]
        show vorbisGo buf endG n (pos + 4 + (len : Int))
            (vorbisUpdate acc (utf8Decode (bufSlice buf (pos + 4) (pos + 4 + (len : Int)))))
          = _
        exact ih _ _
    · rw [if_neg hp, if_neg hp]
      rfl

theorem foldl_lastMatch (f : JStr → Option JStr) :
    ∀ (l : List JStr) (a : Option JStr),
      l.foldl (fun acc c => match f c with | some v => some v | none => acc) a
        = match (l.filterMap f).getLast? with
          | some v => some v
          | none => a := by
  intro l
  induction l with
  | nil => intro a; rfl
  | cons c t ih =>
    intro a
    rw [List.foldl_cons, ih, List.filterMap_cons]
    rcases hf : f c with _ | v
    · rfl
    · cases hfm : t.filterMap f with
      | nil => simp
      | cons x xs =>
        rcases hy : (x :: xs).getLast? with _ | y
        · simp at hy
        · simp [List.getLast?_cons_cons, hy]

theorem foldl_vorbisUpdate_title :
    ∀ (l : List JStr) (acc : VorbisTags),
      (List.foldl vorbisUpdate acc l).title
        = l.foldl (fun a c => match vorbisTitleOf c with | some v => some v | none => a)
            acc.title := by
  intro l
  induction l with
  | nil => intro acc; rfl
  | cons c t ih =>
    intro acc
    rw [List.foldl_cons, List.foldl_cons, ih, vorbisUpdate_title]

theorem foldl_vorbisUpdate_artist :
    ∀ (l : List JStr) (acc : VorbisTags),
      (List.foldl vorbisUpdate acc l).artist
        = l.foldl (fun a c => match vorbisArtistOf c with | some v => some v | none => a)
            acc.artist := by
  intro l
  induction l with
  | nil => intro acc; rfl
  | cons c t ih =>
    intro acc
    rw [List.foldl_cons, List.foldl_cons, ih, vorbisUpdate_artist]

theorem foldl_vorbisUpdate_album :
    ∀ (l : List JStr) (acc : VorbisTags),
      (List.foldl vorbisUpdate acc l).album
        = l.foldl (fun a c => match vorbisAlbumOf c with | some v => some v | none => a)
            acc.album := by
  intro l
  induction l with
  | nil => intro acc; rfl
  | cons c t ih =>
    intro acc
    rw [List.foldl_cons, List.foldl_cons, ih, vorbisUpdate_album]

theorem matchId (x : Option JStr) :
    (match x with | some v => some v | none => (none : Option JStr)) = x := by
  rcases x with _ | v <;> rfl

/-- C7, amended: within a VORBIS_COMMENT block, the value taken for each of
title, artist and album is the value of the *last* comment (in entry order)
whose key matches TITLE/ARTIST/ALBUM case-insensitively with a nonempty
value — each matching entry overwrites the previous one, so later
occurrences replace earlier ones, the opposite of the claimed
first-occurrence-wins policy. -/
theorem vorbis_last_occurrence_wins (buf : Buf) (offset size : Int) :
    (parseVorbisComments buf offset size).title
        = ((vorbisComments buf offset size).filterMap vorbisTitleOf).getLast? ∧
      (parseVorbisComments buf offset size).artist
        = ((vorbisComments buf offset size).filterMap vorbisArtistOf).getLast? ∧
      (parseVorbisComments buf offset size).album
        = ((vorbisComments buf offset size).filterMap vorbisAlbumOf).getLast? := by
  unfold parseVorbisComments vorbisComments
  rcases vorbisHeader buf offset with _ | ⟨commentCount, pos⟩
  · exact ⟨rfl, rfl, rfl⟩
  show (vorbisGo buf (offset + size - 4) commentCount pos ⟨none, none, none⟩).title
        = ((vorbisRawComments buf (offset + size - 4) commentCount pos).filterMap
            vorbisTitleOf).getLast? ∧
      (vorbisGo buf (offset + size - 4) commentCount pos ⟨none, none, none⟩).artist
        = ((vorbisRawComments buf (offset + size - 4) commentCount pos).filterMap
            vorbisArtistOf).getLast? ∧
      (vorbisGo buf (offset + size - 4) commentCount pos ⟨none, none, none⟩).album
        = ((vorbisRawComments buf (offset + size - 4) commentCount pos).filterMap
            vorbisAlbumOf).getLast?
  rw [vorbisGo_eq_foldl]
  refine ⟨?_, ?_, ?_⟩
  · rw [foldl_vorbisUpdate_title, foldl_lastMatch, matchId]
  · rw [foldl_vorbisUpdate_artist, foldl_lastMatch, matchId]
  · rw [foldl_vorbisUpdate_album, foldl_lastMatch, matchId]

/-! ## The cover invariant -/

theorem parseFLACPicture_shape {buf : Buf} {o sz : Int} {pd : JStr × JStr}
    (h : parseFLACPicture buf o sz = some pd) :
    ∃ bytes, pd.1 = btoa bytes := by
  unfold parseFLACPicture at h
  repeat' split at h
  all_goals cases h
  exact ⟨_, rfl⟩

theorem mp3FrameEffect_cover {buf : Buf} {fid : JStr} {fdo fs : Int} {m m2 : Metadata}
    (h : mp3FrameEffect buf fid fdo fs m = .ok m2) :
    m2.cover = m.cover ∧ m2.coverType = m.coverType := by
  unfold mp3FrameEffect at h
  repeat' split at h
  all_goals try (rename_i heq; simp [readAPICFrame] at heq)
  all_goals cases h
  all_goals exact ⟨rfl, rfl⟩

theorem mp3Go_cover {buf : Buf} {v : Nat} {endO : Int} :
    ∀ (fuel : Nat) (o : Int) (m r : Metadata),
      mp3Go buf v endO fuel o m = some (.ok r) →
      r.cover = m.cover ∧ r.coverType = m.coverType := by
  intro fuel
  induction fuel with
  | zero => intro o m r h; simp [mp3Go] at h
  | succ n ih =>
    intro o m r h
    rw [mp3Go] at h
    split at h
    · split at h
      · split at h
        · cases h
        · split at h
          · simp only [Option.some.injEq, Except.ok.injEq] at h
            subst h
            exact ⟨rfl, rfl⟩
          · split at h
            · cases h
            · rename_i m2 heq
              have h2 := mp3FrameEffect_cover heq
              have h3 := ih _ _ _ h
              exact ⟨h3.1.trans h2.1, h3.2.trans h2.2⟩
      · cases h
    · simp only [Option.some.injEq, Except.ok.injEq] at h
      subst h
      exact ⟨rfl, rfl⟩

theorem coverPairOk_btoa (bytes : List Nat) (mt : JStr) :
    coverPairOk (some (btoa bytes)) (some mt) := by
  refine ⟨by simp, ?_⟩
  intro s hs ch hch
  simp only [Option.some.injEq] at hs
  subst hs
  exact btoa_b64 _ ch hch

theorem flacBlockEffect_cover {buf : Buf} {bt bs bdo : Int} {m m2 : Metadata}
    (hm : coverPairOk m.cover m.coverType)
    (h : flacBlockEffect buf bt bs bdo m = .ok m2) :
    coverPairOk m2.cover m2.coverType := by
  unfold flacBlockEffect at h
  repeat' split at h
  all_goals cases h
  all_goals try exact hm
  rename_i pd heq
  obtain ⟨bytes, hb⟩ := parseFLACPicture_shape heq
  have := coverPairOk_btoa bytes pd.2
  rw [← hb] at this
  exact this

theorem flacGo_cover {buf : Buf} :
    ∀ (fuel : Nat) (o : Int) (m r : Metadata),
      coverPairOk m.cover m.coverType →
      flacGo buf fuel o m = some (.ok r) →
      coverPairOk r.cover r.coverType := by
  intro fuel
  induction fuel with
  | zero => intro o m r _ h; simp [flacGo] at h
  | succ n ih =>
    intro o m r hm h
    rw [flacGo] at h
    split at h
    · split at h
      · split at h
        · cases h
        · rename_i m2 heq
          have h2 := flacBlockEffect_cover hm heq
          split at h
          · simp only [Option.some.injEq, Except.ok.injEq] at h
            subst h
            exact h2
          · exact ih _ _ _ h2 h
      · cases h
    · simp only [Option.some.injEq, Except.ok.injEq] at h
      subst h
      exact hm

theorem wavChunkEffect_cover {buf : Buf} {cid : JStr} {cs : Nat} {o : Int}
    {m m2 : Metadata} (h : wavChunkEffect buf cid cs o m = some (.ok m2)) :
    m2.cover = m.cover ∧ m2.coverType = m.coverType := by
  unfold wavChunkEffect at h
  repeat' split at h
  all_goals cases h
  all_goals exact ⟨rfl, rfl⟩

theorem wavGo_cover {buf : Buf} :
    ∀ (fuel : Nat) (o : Int) (m r : Metadata),
      wavGo buf fuel o m = some (.ok r) →
      r.cover = m.cover ∧ r.coverType = m.coverType := by
  intro fuel
  induction fuel with
  | zero => intro o m r h; simp [wavGo] at h
  | succ n ih =>
    intro o m r h
    rw [wavGo] at h
    split at h
    · split at h
      · split at h
        · cases h
        · split at h
          · cases h
          · cases h
          · rename_i m2 heq
            have h2 := wavChunkEffect_cover heq
            have h3 := ih _ _ _ h
            exact ⟨h3.1.trans h2.1, h3.2.trans h2.2⟩
      · cases h
    · simp only [Option.some.injEq, Except.ok.injEq] at h
      subst h
      exact ⟨rfl, rfl⟩

theorem m4aInit_cover : coverPairOk m4aInit.cover m4aInit.coverType := by
  refine ⟨by simp [m4aInit], ?_⟩
  intro s hs
  simp [m4aInit] at hs

set_option maxHeartbeats 2000000 in
theorem m4aStep_cover {buf : Buf} :
    ∀ (fuel : Nat) (fr : M4AFrame) (r : M4ATags) (o2 : Int),
      m4aStep buf fuel fr = some (.ok (r, o2)) →
      coverPairOk fr.res.cover fr.res.coverType →
      coverPairOk r.cover r.coverType := by
  intro fuel
  induction fuel with
  | zero => intro fr r o2 h _; simp [m4aStep] at h
  | succ n ih =>
    intro fr r o2 h hm
    rcases fr with ⟨o, res⟩ | ⟨k, o, res⟩ | ⟨k, endO, o, res⟩
    all_goals rw [m4aStep] at h
    all_goals repeat' split at h
    all_goals try cases h
    all_goals try exact hm
    all_goals try exact coverPairOk_btoa _ _
    all_goals solve_by_elim [ih, hm, m4aInit_cover, coverPairOk_btoa]

theorem defaultMetadata_coverPair (p : JStr) :
    coverPairOk (defaultMetadata p).cover (defaultMetadata p).coverType := by
  refine ⟨by simp [defaultMetadata], ?_⟩
  intro s hs
  simp [defaultMetadata] at hs

theorem mp3Tail_cover {buf : Buf} {v : Nat} {size o : Int} {dflt r : Metadata}
    (h : mp3Tail buf v size o dflt = some (.ok r)) :
    r.cover = dflt.cover ∧ r.coverType = dflt.coverType := by
  unfold mp3Tail at h
  split at h
  · cases h
  · cases h
  · rename_i m heq
    simp only [Option.some.injEq, Except.ok.injEq] at h
    subst h
    have hc := mp3Go_cover _ _ _ _ heq
    exact ⟨hc.1, hc.2⟩

theorem parseMP3_cover {buf : Buf} {dflt r : Metadata}
    (h : parseMP3 buf dflt = some (.ok r)) :
    r.cover = dflt.cover ∧ r.coverType = dflt.coverType := by
  unfold parseMP3 at h
  repeat' split at h
  all_goals try cases h
  all_goals try exact ⟨rfl, rfl⟩
  all_goals exact mp3Tail_cover h

theorem parseFLAC_cover {buf : Buf} {dflt r : Metadata}
    (hd : coverPairOk dflt.cover dflt.coverType)
    (h : parseFLAC buf dflt = some (.ok r)) :
    coverPairOk r.cover r.coverType := by
  unfold parseFLAC at h
  repeat' split at h
  all_goals try cases h
  all_goals try exact hd
  exact flacGo_cover _ _ _ _ hd h

theorem parseWAV_cover {buf : Buf} {dflt r : Metadata}
    (h : parseWAV buf dflt = some (.ok r)) :
    r.cover = dflt.cover ∧ r.coverType = dflt.coverType := by
  unfold parseWAV at h
  repeat' split at h
  all_goals try cases h
  all_goals try exact ⟨rfl, rfl⟩
  exact wavGo_cover _ _ _ _ h

theorem m4aParse_cover {buf : Buf} {tags : M4ATags}
    (h : m4aParse buf = some (.ok tags)) :
    coverPairOk tags.cover tags.coverType := by
  unfold m4aParse at h
  split at h
  · cases h
  · cases h
  · rename_i res o heq
    simp only [Option.some.injEq, Except.ok.injEq] at h
    subst h
    exact m4aStep_cover _ _ _ _ heq m4aInit_cover

theorem parseM4A_cover {buf : Buf} {dflt r : Metadata}
    (hd : coverPairOk dflt.cover dflt.coverType)
    (h : parseM4A buf dflt = some r) :
    coverPairOk r.cover r.coverType := by
  unfold parseM4A at h
  split at h
  · cases h
  · simp only [Option.some.injEq] at h
    subst h
    exact hd
  · rename_i tags heq
    simp only [Option.some.injEq] at h
    subst h
    exact m4aParse_cover heq

/-- Every record the dispatcher returns satisfies the cover/MIME pairing
invariant, and every present cover consists of base64 characters. -/
theorem parseMetadata_coverPair {buf : Buf} {p : JStr} {r : Metadata}
    (h : parseMetadata buf p = some r) :
    coverPairOk r.cover r.coverType := by
  unfold parseMetadata at h
  split at h
  · unfold catchDefault at h
    split at h
    · cases h
    · simp only [Option.some.injEq] at h
      subst h
      exact defaultMetadata_coverPair p
    · rename_i m heq
      simp only [Option.some.injEq] at h
      subst h
      have hc := parseMP3_cover heq
      rw [hc.1, hc.2]
      exact defaultMetadata_coverPair p
  · split at h
    · unfold catchDefault at h
      split at h
      · cases h
      · simp only [Option.some.injEq] at h
        subst h
        exact defaultMetadata_coverPair p
      · rename_i m heq
        simp only [Option.some.injEq] at h
        subst h
        exact parseFLAC_cover (defaultMetadata_coverPair p) heq
    · split at h
      · exact parseM4A_cover (defaultMetadata_coverPair p) h
      · split at h
        · unfold catchDefault at h
          split at h
          · cases h
          · simp only [Option.some.injEq] at h
            subst h
            exact defaultMetadata_coverPair p
          · rename_i m heq
            simp only [Option.some.injEq] at h
            subst h
            have hc := parseWAV_cover heq
            rw [hc.1, hc.2]
            exact defaultMetadata_coverPair p
        · simp only [Option.some.injEq] at h
          subst h
          exact defaultMetadata_coverPair p

/-! ## Claim C8: cover bytes, counterexample -/

/-- C8, counterexample: a FLAC PICTURE block whose image payload is the
single byte `0x00` produces a cover equal to the base64 *text* "AA=="
(the output of `arrayBufferToBase64`), not the raw byte sequence `[0x00]`. -/
theorem cover_not_raw_bytes_counterexample :
    (parseMetadata flacPictureBuf (jstr "p.flac")).map Metadata.cover
        = some (some (jstr "AA==")) ∧
      jstr "AA==" = btoa [0x00] ∧
      jstr "AA==" ≠ [0x00] :=
  ⟨by decide, by decide, by decide⟩

/-- C8 (amended): whenever the returned record carries a cover, the cover is
the base64 *text* produced by `arrayBufferToBase64` (or the M4A branch's
`btoa` call): every code unit of it is a base64 alphabet character or the
padding sign, never arbitrary raw image bytes. -/
theorem parseMetadata_cover_base64 {buf : Buf} {p : JStr} {r : Metadata}
    {s : JStr} (h : parseMetadata buf p = some r) (hc : r.cover = some s) :
    ∀ ch ∈ s, isB64Char ch :=
  (parseMetadata_coverPair h).2 s hc

theorem parseMetadata_cover_base64_witness :
    parseMetadata flacPictureBuf (jstr "p.flac") =
        some { defaultMetadata (jstr "p.flac") with
               cover := some (jstr "AA=="), coverType := some (jstr "image/png") } ∧
      ∀ ch ∈ jstr "AA==", isB64Char ch :=
  ⟨by decide,
   @parseMetadata_cover_base64 flacPictureBuf (jstr "p.flac")
     { defaultMetadata (jstr "p.flac") with
       cover := some (jstr "AA=="), coverType := some (jstr "image/png") }
     (jstr "AA==") (by decide) (by decide)⟩

/-! ## Claim C10: the cover/MIME pairing invariant -/

/-- C10: for every input buffer and filename, the record `parseMetadata`
returns has a present (non-null) cover MIME type exactly when it has a
present (non-null) cover: no parser path sets one of the two fields without
the other. -/
theorem parseMetadata_cover_mime_iff {buf : Buf} {p : JStr} {r : Metadata}
    (h : parseMetadata buf p = some r) :
    r.cover.isSome ↔ r.coverType.isSome :=
  (parseMetadata_coverPair h).1

theorem parseMetadata_cover_mime_iff_witness :
    parseMetadata [] (jstr "b.m4a") = some (defaultMetadata (jstr "b.m4a")) ∧
      ((defaultMetadata (jstr "b.m4a")).cover.isSome ↔
        (defaultMetadata (jstr "b.m4a")).coverType.isSome) :=
  ⟨by decide,
   @parseMetadata_cover_mime_iff [] (jstr "b.m4a") (defaultMetadata (jstr "b.m4a"))
     (by decide)⟩

/-! ## Claim C1: totality at the dispatcher boundary for short MP3 buffers -/

/-- On a buffer shorter than the 10-byte ID3v2 header, `parseMP3` either
throws (and the dispatcher catches) or returns the untouched defaults copy:
the magic test short-circuits, and the syncsafe tag-size read at bytes 6-9
throws before the frame loop can start. -/
theorem parseMP3_short_buffer {buf : Buf} {d : Metadata} (hlen : buf.length < 10) :
    parseMP3 buf d = some (.error ()) ∨ parseMP3 buf d = some (.ok d) := by
  have h9 : getU8 buf 9 = .error () := getU8_error_of_le (by omega)
  have hs : readSyncsafeInt buf 6 = .error () := by
    apply readSyncsafeInt_error
    rw [show (6 : Int) + 3 = 9 by norm_num]
    exact h9
  rcases h0 : getU8 buf 0 with _ | b0
  · left; rw [parseMP3, h0]
  by_cases hb0 : b0 = 73
  case neg =>
    right; rw [parseMP3, h0]
    show (if b0 = 73 then _ else some (Except.ok d)) = some (Except.ok d)
    rw [if_neg hb0]
  subst hb0
  rcases h1 : getU8 buf 1 with _ | b1
  · left; rw [parseMP3, h0, h1]; rfl
  by_cases hb1 : b1 = 68
  case neg =>
    right; rw [parseMP3, h0, h1]
    show (if b1 = 68 then _ else some (Except.ok d)) = some (Except.ok d)
    rw [if_neg hb1]
  subst hb1
  rcases h2 : getU8 buf 2 with _ | b2
  · left; rw [parseMP3, h0, h1, h2]; rfl
  by_cases hb2 : b2 = 51
  case neg =>
    right; rw [parseMP3, h0, h1, h2]
    show (if b2 = 51 then _ else some (Except.ok d)) = some (Except.ok d)
    rw [if_neg hb2]
  subst hb2
  left
  rw [parseMP3, h0, h1, h2, hs]
  rcases getU8 buf 3 with _ | b3 <;> rcases getU8 buf 5 with _ | b5 <;> rfl

/-- C1: with a `.mp3` filename and any buffer shorter than a 10-byte ID3v2
header, `parseMetadata` returns the pre-seeded default record — the
out-of-bounds reads are thrown inside the parser and caught at the
dispatcher boundary, never propagated to the caller. -/
theorem parseMetadata_mp3_short_buffer (buf : Buf) (p : JStr)
    (hext : jsLower (getFileExtension p) = jstr ".mp3")
    (hlen : buf.length < 10) :
    parseMetadata buf p = some (defaultMetadata p) := by
  have hd := @parseMP3_short_buffer buf (defaultMetadata p) hlen
  rw [parseMetadata, hext]
  show (if jstr ".mp3" = jstr ".mp3" then
          catchDefault (defaultMetadata p) (parseMP3 buf (defaultMetadata p))
        else _) = some (defaultMetadata p)
  rw [if_pos rfl]
  rcases hd with h | h <;> rw [h] <;> rfl

/-- C1, witness: the empty buffer with filename "song.mp3". -/
theorem parseMetadata_mp3_short_buffer_witness :
    parseMetadata [] (jstr "song.mp3") = some (defaultMetadata (jstr "song.mp3")) :=
  parseMetadata_mp3_short_buffer [] (jstr "song.mp3") (by decide) (by decide)

/-- C9, amended: for every filename whose lowercased extension is not one
of .mp3/.flac/.m4a/.wav, `parseMetadata` ignores the buffer and returns the
pure default record: duration 0, no cover, sentinel artist/album, and title
equal to the filename stem (directory prefix and final extension stripped)
when that stem is nonempty, else the fallback "未知歌曲". -/
theorem unsupported_ext_default_record (buf : Buf) (p : JStr)
    (h : jsLower (getFileExtension p) ∉
        [jstr ".mp3", jstr ".flac", jstr ".m4a", jstr ".wav"]) :
    parseMetadata buf p = some (defaultMetadata p) ∧
      (defaultMetadata p).duration = jsNum0 ∧
      (defaultMetadata p).cover = none ∧
      (defaultMetadata p).coverType = none ∧
      (defaultMetadata p).artist = jstr "未知艺术家" ∧
      (defaultMetadata p).album = jstr "未知专辑" ∧
      (defaultMetadata p).title =
        (if stripLastExt (jsBaseName p) = [] then jstr "未知歌曲"
         else stripLastExt (jsBaseName p)) := by
  have h1 : jsLower (getFileExtension p) ≠ jstr ".mp3" := fun he => h (by simp [he])
  have h2 : jsLower (getFileExtension p) ≠ jstr ".flac" := fun he => h (by simp [he])
  have h3 : jsLower (getFileExtension p) ≠ jstr ".m4a" := fun he => h (by simp [he])
  have h4 : jsLower (getFileExtension p) ≠ jstr ".wav" := fun he => h (by simp [he])
  refine ⟨?_, rfl, rfl, rfl, rfl, rfl, rfl⟩
  rw [parseMetadata]
  show (if jsLower (getFileExtension p) = jstr ".mp3" then _ else _)
      = some (defaultMetadata p)
  rw [if_neg h1]
  show (if jsLower (getFileExtension p) = jstr ".flac" then _ else _)
      = some (defaultMetadata p)
  rw [if_neg h2]
  show (if jsLower (getFileExtension p) = jstr ".m4a" then _ else _)
      = some (defaultMetadata p)
  rw [if_neg h3]
  show (if jsLower (getFileExtension p) = jstr ".wav" then _ else _)
      = some (defaultMetadata p)
  rw [if_neg h4]

/-- C9, witness of the amended theorem for "x.ogg" on a nonempty buffer. -/
theorem unsupported_ext_default_record_witness :
    parseMetadata [1, 2, 3] (jstr "x.ogg") = some (defaultMetadata (jstr "x.ogg")) ∧
      (defaultMetadata (jstr "x.ogg")).duration = jsNum0 ∧
      (defaultMetadata (jstr "x.ogg")).cover = none ∧
      (defaultMetadata (jstr "x.ogg")).coverType = none ∧
      (defaultMetadata (jstr "x.ogg")).artist = jstr "未知艺术家" ∧
      (defaultMetadata (jstr "x.ogg")).album = jstr "未知专辑" ∧
      (defaultMetadata (jstr "x.ogg")).title =
        (if stripLastExt (jsBaseName (jstr "x.ogg")) = [] then jstr "未知歌曲"
         else stripLastExt (jsBaseName (jstr "x.ogg"))) :=
  unsupported_ext_default_record [1, 2, 3] (jstr "x.ogg") (by decide)

/-! ## Claim C9: unsupported extension, counterexample -/

/-- C9, counterexample: for the filename ".ogg" the stem (filename with
directory prefix and final extension stripped) is empty, and the returned
title is the fallback "未知歌曲" rather than that empty stem. -/
theorem unsupported_ext_title_counterexample :
    (parseMetadata [] (jstr ".ogg")).map Metadata.title
        = some (jstr "未知歌曲") ∧
      stripLastExt (jsBaseName (jstr ".ogg")) = ([] : JStr) ∧
      jstr "未知歌曲" ≠ ([] : JStr) :=
  ⟨by decide, by decide, by decide⟩


/-! ## Claim C4: WAV chunk sizes are read big-endian, not little-endian -/

theorem c4hdr_len : c4hdr.length = 44 := by decide

theorem c4buf_len : c4buf.length = 1764044 := by
  unfold c4buf
  rw [List.length_append, List.length_replicate, c4hdr_len]

theorem c4buf_lenI : (c4buf.length : Int) = 1764044 := by
  rw [c4buf_len]
  rfl

theorem c4_getU8 {o : Int} (h0 : 0 ≤ o) (hlt : o.toNat < 44) :
    getU8 c4buf o = getU8 c4hdr o := by
  unfold getU8
  rw [if_pos h0, if_pos h0]
  have h : c4buf[o.toNat]? = c4hdr[o.toNat]? := by
    unfold c4buf
    rw [List.getElem?_append_left (by rw [c4hdr_len]; exact hlt)]
  rw [h]

theorem getU8x4_congr {b1 b2 : Buf} {o : Int}
    (h0 : getU8 b1 o = getU8 b2 o) (h1 : getU8 b1 (o + 1) = getU8 b2 (o + 1))
    (h2 : getU8 b1 (o + 2) = getU8 b2 (o + 2))
    (h3 : getU8 b1 (o + 3) = getU8 b2 (o + 3)) :
    getU8x4 b1 o = getU8x4 b2 o := by
  unfold getU8x4
  rw [h0, h1, h2, h3]

theorem getU32_congr {b1 b2 : Buf} {o : Int}
    (h0 : getU8 b1 o = getU8 b2 o) (h1 : getU8 b1 (o + 1) = getU8 b2 (o + 1))
    (h2 : getU8 b1 (o + 2) = getU8 b2 (o + 2))
    (h3 : getU8 b1 (o + 3) = getU8 b2 (o + 3)) :
    getU32 b1 o = getU32 b2 o := by
  unfold getU32
  rw [h0, h1, h2, h3]

theorem getU16_congr {b1 b2 : Buf} {o : Int}
    (h0 : getU8 b1 o = getU8 b2 o) (h1 : getU8 b1 (o + 1) = getU8 b2 (o + 1)) :
    getU16 b1 o = getU16 b2 o := by
  unfold getU16
  rw [h0, h1]

theorem c4_b0 : getU8 c4buf 0 = .ok 82 :=
  (@c4_getU8 0 (by decide) (by decide)).trans (by decide)

theorem c4_b1 : getU8 c4buf 1 = .ok 73 :=
  (@c4_getU8 1 (by decide) (by decide)).trans (by decide)

theorem c4_b2 : getU8 c4buf 2 = .ok 70 :=
  (@c4_getU8 2 (by decide) (by decide)).trans (by decide)

theorem c4_b8 : getU8 c4buf 8 = .ok 87 :=
  (@c4_getU8 8 (by decide) (by decide)).trans (by decide)

theorem c4_b9 : getU8 c4buf 9 = .ok 65 :=
  (@c4_getU8 9 (by decide) (by decide)).trans (by decide)

theorem c4_b10 : getU8 c4buf 10 = .ok 86 :=
  (@c4_getU8 10 (by decide) (by decide)).trans (by decide)

theorem c4_b11 : getU8 c4buf 11 = .ok 69 :=
  (@c4_getU8 11 (by decide) (by decide)).trans (by decide)

theorem c4_r1 : getU8x4 c4buf 12 = .ok (102, 109, 116, 32) :=
  (getU8x4_congr (@c4_getU8 12 (by decide) (by decide))
    (@c4_getU8 (12 + 1) (by decide) (by decide))
    (@c4_getU8 (12 + 2) (by decide) (by decide))
    (@c4_getU8 (12 + 3) (by decide) (by decide))).trans (by decide)

theorem c4_sz1 : getU32 c4buf (12 + 4) = .ok 268435456 :=
  (getU32_congr (@c4_getU8 (12 + 4) (by decide) (by decide))
    (@c4_getU8 (12 + 4 + 1) (by decide) (by decide))
    (@c4_getU8 (12 + 4 + 2) (by decide) (by decide))
    (@c4_getU8 (12 + 4 + 3) (by decide) (by decide))).trans (by decide)

theorem c4_r22 : getU16 c4buf (12 + 10) = .ok 512 :=
  (getU16_congr (@c4_getU8 (12 + 10) (by decide) (by decide))
    (@c4_getU8 (12 + 10 + 1) (by decide) (by decide))).trans (by decide)

theorem c4_r24 : getU32 c4buf (12 + 12) = .ok 1152122880 :=
  (getU32_congr (@c4_getU8 (12 + 12) (by decide) (by decide))
    (@c4_getU8 (12 + 12 + 1) (by decide) (by decide))
    (@c4_getU8 (12 + 12 + 2) (by decide) (by decide))
    (@c4_getU8 (12 + 12 + 3) (by decide) (by decide))).trans (by decide)

theorem c4_r28 : getU32 c4buf (12 + 16) = .ok 280035840 :=
  (getU32_congr (@c4_getU8 (12 + 16) (by decide) (by decide))
    (@c4_getU8 (12 + 16 + 1) (by decide) (by decide))
    (@c4_getU8 (12 + 16 + 2) (by decide) (by decide))
    (@c4_getU8 (12 + 16 + 3) (by decide) (by decide))).trans (by decide)

theorem c4_r34 : getU16 c4buf (12 + 22) = .ok 4096 :=
  (getU16_congr (@c4_getU8 (12 + 22) (by decide) (by decide))
    (@c4_getU8 (12 + 22 + 1) (by decide) (by decide))).trans (by decide)

theorem c4gen_find {buf : Buf} (hlen : buf.length = 1764044) :
    findWAVDataSize buf 268435476 ((buf.length : Int)) = some (.ok 0) := by
  unfold findWAVDataSize
  rw [hlen]
  rw [findWAVDataSizeGo]
  rw [if_neg (by decide)]

theorem c4gen_fmt {buf : Buf} {d : Metadata}
    (hlen : buf.length = 1764044)
    (h22 : getU16 buf (12 + 10) = .ok 512)
    (h24 : getU32 buf (12 + 12) = .ok 1152122880)
    (h28 : getU32 buf (12 + 16) = .ok 280035840)
    (h34 : getU16 buf (12 + 22) = .ok 4096) :
    wavChunkEffect buf [102, 109, 116, 32] 268435456 12 d = some (.ok d) := by
  unfold wavChunkEffect
  rw [if_pos (by decide)]
  rw [h22, h24, h28, h34]
  dsimp only []
  rw [show ((12 : Int) + 8 + ((268435456 : Nat) : Int)) = 268435476 from by norm_num]
  rw [c4gen_find hlen]
  dsimp only []
  rw [if_neg (by decide)]

theorem c4gen_wavGo {buf : Buf} {d : Metadata}
    (hlenI : (buf.length : Int) = 1764044)
    (hlen : buf.length = 1764044)
    (hr1 : getU8x4 buf 12 = .ok (102, 109, 116, 32))
    (hsz : getU32 buf (12 + 4) = .ok 268435456)
    (hfmt : wavChunkEffect buf [102, 109, 116, 32] 268435456 12 d = some (.ok d)) :
    wavGo buf (buf.length + 1) 12 d = some (.ok d) := by
  rw [wavGo]
  rw [if_pos (show (12 : Int) < (buf.length : Int) - 8 by rw [hlenI]; norm_num)]
  rw [hr1]
  dsimp only []
  rw [hsz]
  dsimp only []
  rw [hfmt]
  dsimp only []
  rw [if_neg (by decide)]
  rw [show ((12 : Int) + 8 + ((268435456 : Nat) : Int) + 0) = 268435476 from by norm_num]
  rw [hlen]
  rw [show (1764044 : Nat) = 1764043 + 1 from by norm_num]
  rw [wavGo]
  rw [if_neg (show ¬((268435476 : Int) < (buf.length : Int) - 8) by rw [hlenI]; norm_num)]

theorem c4gen_parseWAV {buf : Buf}
    (hb0 : getU8 buf 0 = .ok 82) (hb1 : getU8 buf 1 = .ok 73) (hb2 : getU8 buf 2 = .ok 70)
    (hb8 : getU8 buf 8 = .ok 87) (hb9 : getU8 buf 9 = .ok 65)
    (hb10 : getU8 buf 10 = .ok 86) (hb11 : getU8 buf 11 = .ok 69)
    (hgo : wavGo buf (buf.length + 1) 12 (defaultMetadata (jstr "a.wav"))
             = some (.ok (defaultMetadata (jstr "a.wav")))) :
    parseWAV buf (defaultMetadata (jstr "a.wav"))
      = some (.ok (defaultMetadata (jstr "a.wav"))) := by
  unfold parseWAV
  rw [hb0, hb1, hb2]
  dsimp only []
  rw [if_pos (by decide)]
  rw [hb8, hb9, hb10, hb11]
  dsimp only []
  rw [if_pos (by decide)]
  exact hgo

theorem c4gen_dispatch {buf : Buf}
    (hpw : parseWAV buf (defaultMetadata (jstr "a.wav"))
             = some (.ok (defaultMetadata (jstr "a.wav")))) :
    (parseMetadata buf (jstr "a.wav")).map Metadata.duration = some jsNum0 := by
  unfold parseMetadata
  rw [if_neg (by decide), if_neg (by decide), if_neg (by decide), if_pos (by decide)]
  rw [hpw]
  rfl

/-- C4: the chunk-size fields are read with the big-endian default of
`DataView.getUint32`, not little-endian as RIFF prescribes: on the minimal
WAV file of the claim — `fmt ` chunk with byteRate 176400 followed by a `data` chunk of
1,764,000 bytes, every size field little-endian — the `fmt ` size bytes
`10 00 00 00` are read as 2^28, the `data` scan starts beyond the buffer and
finds nothing, and the returned duration is 0, not the required 10 s. -/
theorem wav_le_size_bug :
    (parseMetadata c4buf (jstr "a.wav")).map Metadata.duration = some jsNum0 ∧
      jsNum0.toRat ≠ 10 := by
  constructor
  · exact c4gen_dispatch (c4gen_parseWAV c4_b0 c4_b1 c4_b2 c4_b8 c4_b9 c4_b10 c4_b11
      (c4gen_wavGo c4buf_lenI c4buf_len c4_r1 c4_sz1
        (c4gen_fmt c4buf_len c4_r22 c4_r24 c4_r28 c4_r34)))
  · simp [jsNum0, JSNum.toRat]


/-! ## Claim C2: termination of every parser loop -/

theorem getU32_ok_bound {buf : Buf} {o : Int} {n : Nat} (h : getU32 buf o = .ok n) :
    0 ≤ o ∧ o.toNat < buf.length := by
  rcases hx : getU8 buf o with u | b0
  · exfalso
    unfold getU32 at h
    rw [hx] at h
    rcases getU8 buf (o + 1) with _ | b1 <;> rcases getU8 buf (o + 2) with _ | b2 <;>
      rcases getU8 buf (o + 3) with _ | b3 <;> cases h
  · exact getU8_ok_bound hx

theorem getU8x4_ok {buf : Buf} {o : Int} {a b c d : Nat}
    (h : getU8x4 buf o = .ok (a, b, c, d)) :
    getU8 buf o = .ok a ∧ getU8 buf (o + 1) = .ok b ∧
      getU8 buf (o + 2) = .ok c ∧ getU8 buf (o + 3) = .ok d := by
  unfold getU8x4 at h
  rcases h0 : getU8 buf o with _ | a' <;> rw [h0] at h <;>
    rcases h1 : getU8 buf (o + 1) with _ | b' <;> rw [h1] at h <;>
    rcases h2 : getU8 buf (o + 2) with _ | c' <;> rw [h2] at h <;>
    rcases h3 : getU8 buf (o + 3) with _ | d' <;> rw [h3] at h <;>
    cases h <;> exact ⟨rfl, rfl, rfl, rfl⟩

theorem flacHdr_ok {buf : Buf} {o bt bs : Int} {last : Bool}
    (hb : ∀ x ∈ buf, x < 256)
    (h : flacHdr buf o = .ok (bt, bs, last)) :
    0 ≤ o ∧ o.toNat < buf.length ∧ 0 ≤ bs := by
  unfold flacHdr at h
  rcases heq : getU8x4 buf o with u | ⟨bh, s1, s2, s3⟩ <;> rw [heq] at h
  · cases h
  · simp only [Except.ok.injEq, Prod.mk.injEq] at h
    obtain ⟨hbt, hbs, hlast⟩ := h
    obtain ⟨e0, e1, e2, e3⟩ := getU8x4_ok heq
    have hb1 : s1 < 256 := hb _ (getU8_ok_mem e1)
    have hb2 : s2 < 256 := hb _ (getU8_ok_mem e2)
    have hb3 : s3 < 256 := hb _ (getU8_ok_mem e3)
    have hbd := getU8_ok_bound e0
    have hs1 : jsShl (s1 : Int) 16 = ((s1 * 65536 : Nat) : Int) := by
      have := @jsShl_of_small s1 16 16 (by decide) (by omega)
      simpa using this
    have hs2 : jsShl (s2 : Int) 8 = ((s2 * 256 : Nat) : Int) := by
      have := @jsShl_of_small s2 8 8 (by decide) (by omega)
      simpa using this
    have hor1 : jsOr (jsShl (s1 : Int) 16) (jsShl (s2 : Int) 8)
        = ((s1 * 65536 ||| s2 * 256 : Nat) : Int) := by
      rw [hs1, hs2]
      exact jsOr_of_small (by omega) (by omega)
    have hlt : s1 * 65536 ||| s2 * 256 < 2147483648 := by
      have h24 : s1 * 65536 < 2 ^ 24 := by omega
      have h24b : s2 * 256 < 2 ^ 24 := by omega
      have := lor_lt_pow h24 h24b
      omega
    have hor2 : jsOr (jsOr (jsShl (s1 : Int) 16) (jsShl (s2 : Int) 8)) (s3 : Int)
        = (((s1 * 65536 ||| s2 * 256) ||| s3 : Nat) : Int) := by
      rw [hor1]
      exact jsOr_of_small hlt (by omega)
    refine ⟨hbd.1, hbd.2, ?_⟩
    rw [← hbs, hor2]
    exact Int.natCast_nonneg _

theorem findWAVDataSizeGo_total {buf : Buf} {fs : Int} :
    ∀ (fuel : Nat) (o : Int), 0 ≤ o →
      buf.length + 1 - min o.toNat buf.length ≤ fuel →
      (findWAVDataSizeGo buf fs fuel o).isSome := by
  intro fuel
  induction fuel with
  | zero => intro o h0 hf; exact absurd hf (by omega)
  | succ n ih =>
    intro o h0 hf
    rw [findWAVDataSizeGo]
    split
    · split
      · split
        · simp
        · split
          · simp
          · have hbd : 0 ≤ o ∧ o.toNat < buf.length := getU8_ok_bound (by assumption)
            apply ih
            · split <;> omega
            · split <;> omega
      · simp
    · simp

theorem wavInfoGo_total {buf : Buf} {endO : Int} :
    ∀ (fuel : Nat) (pos : Int) (info : WavInfo), 0 ≤ pos →
      buf.length + 1 - min pos.toNat buf.length ≤ fuel →
      (wavInfoGo buf endO fuel pos info).isSome := by
  intro fuel
  induction fuel with
  | zero => intro pos info h0 hf; exact absurd hf (by omega)
  | succ n ih =>
    intro pos info h0 hf
    rw [wavInfoGo]
    split
    · split
      · split
        · simp
        · split
          · simp
          · split
            · split
              · simp
              · have hbd : 0 ≤ pos ∧ pos.toNat < buf.length := getU8_ok_bound (by assumption)
                apply ih
                · split <;> omega
                · split <;> omega
            · have hbd : 0 ≤ pos ∧ pos.toNat < buf.length := getU8_ok_bound (by assumption)
              apply ih
              · split <;> omega
              · split <;> omega
      · simp
    · simp

theorem mp3Go_total {buf : Buf} {v : Nat} {endO : Int} :
    ∀ (fuel : Nat) (o : Int) (m : Metadata), 0 ≤ o →
      buf.length + 1 - min o.toNat buf.length ≤ fuel →
      (mp3Go buf v endO fuel o m).isSome := by
  intro fuel
  induction fuel with
  | zero => intro o m h0 hf; exact absurd hf (by omega)
  | succ n ih =>
    intro o m h0 hf
    rw [mp3Go]
    split
    · split
      · split
        · simp
        · split
          · simp
          · split
            · simp
            · have hbd : 0 ≤ o ∧ o.toNat < buf.length := getU8_ok_bound (by assumption)
              apply ih
              · split <;> omega
              · split <;> omega
      · simp
    · simp

theorem m4aStep_mono {buf : Buf} :
    ∀ (fuel : Nat) (fr : M4AFrame) (r : M4ATags) (o2 : Int),
      m4aStep buf fuel fr = some (.ok (r, o2)) →
      fr.off ≤ o2 := by
  intro fuel
  induction fuel with
  | zero => intro fr r o2 h; simp [m4aStep] at h
  | succ n ih =>
    intro fr r o2 h
    rcases fr with ⟨o, res⟩ | ⟨k, o, res⟩ | ⟨k, endO, o, res⟩
    all_goals rw [m4aStep] at h
    all_goals repeat' split at h
    all_goals try cases h
    all_goals simp only [M4AFrame.off]
    all_goals try omega
    all_goals first
      | (have h1 := ih _ _ _ h
         clear h
         have h2 := ih _ _ _ (by assumption)
         simp only [M4AFrame.off] at h1 h2
         omega)
      | (have h2 := ih _ _ _ (by assumption)
         simp only [M4AFrame.off] at h2
         omega)

theorem m4aStep_total {buf : Buf} :
    ∀ (fuel : Nat) (fr : M4AFrame), 0 ≤ fr.off →
      m4aNeed buf.length fr ≤ fuel →
      (m4aStep buf fuel fr).isSome := by
  intro fuel
  induction fuel with
  | zero =>
    intro fr h0 hf
    rcases fr with ⟨o, res⟩ | ⟨k, o, res⟩ | ⟨k, endO, o, res⟩ <;>
      simp only [M4AFrame.off] at h0 <;> simp only [m4aNeed] at hf <;>
      exact absurd hf (by omega)
  | succ n ih =>
    intro fr h0 hf
    rcases fr with ⟨o, res⟩ | ⟨k, o, res⟩ | ⟨k, endO, o, res⟩
    all_goals simp only [M4AFrame.off] at h0
    all_goals simp only [m4aNeed] at hf
    all_goals rw [m4aStep]
    all_goals repeat' split
    all_goals try rfl
    all_goals try (have hbd := getU32_ok_bound (by assumption))
    all_goals try (have hm := m4aStep_mono _ _ _ _ (by assumption)
                   simp only [M4AFrame.off] at hm)
    all_goals first
      | (apply ih <;> ((try simp only [M4AFrame.off, m4aNeed]); omega))
      | (rename_i hnone
         rw [← hnone]
         apply ih <;> ((try simp only [M4AFrame.off, m4aNeed]); omega))

theorem flacGo_total {buf : Buf} (hb : ∀ x ∈ buf, x < 256) :
    ∀ (fuel : Nat) (o : Int) (m : Metadata), 0 ≤ o →
      buf.length + 1 - min o.toNat buf.length ≤ fuel →
      (flacGo buf fuel o m).isSome := by
  intro fuel
  induction fuel with
  | zero => intro o m h0 hf; exact absurd hf (by omega)
  | succ n ih =>
    intro o m h0 hf
    rw [flacGo]
    split
    · split
      · split
        · simp
        · split
          · simp
          · have hh := flacHdr_ok hb (by assumption)
            apply ih
            · omega
            · omega
      · simp
    · simp

theorem wavChunkEffect_total (buf : Buf) (cid : JStr) (cs : Nat) (o : Int)
    (m : Metadata) (h0 : 0 ≤ o) : (wavChunkEffect buf cid cs o m).isSome := by
  unfold wavChunkEffect
  split
  · split
    · split
      · rename_i hnone
        have ht := @findWAVDataSizeGo_total buf ((buf.length : Int)) (buf.length + 1)
          (o + 8 + (cs : Int)) (by omega) (by omega)
        unfold findWAVDataSize at hnone
        rw [hnone] at ht
        simp at ht
      · simp
      · split <;> simp
    · simp
  · split
    · split
      · split
        · split
          · rename_i hnone
            have ht := @wavInfoGo_total buf (o + 12 + ((cs : Int) - 4)) (buf.length + 1)
              (o + 12) ⟨none, none, none, none, none⟩ (by omega) (by omega)
            unfold parseWAVInfo at hnone
            rw [hnone] at ht
            simp at ht
          · simp
          · simp
        · simp
      · simp
    · simp

theorem wavGo_total {buf : Buf} :
    ∀ (fuel : Nat) (o : Int) (m : Metadata), 0 ≤ o →
      buf.length + 1 - min o.toNat buf.length ≤ fuel →
      (wavGo buf fuel o m).isSome := by
  intro fuel
  induction fuel with
  | zero => intro o m h0 hf; exact absurd hf (by omega)
  | succ n ih =>
    intro o m h0 hf
    rw [wavGo]
    split
    · split
      · rename_i c0123 hx4
        split
        · simp
        · rename_i sz hsz
          split
          · rename_i hchunk
            rw [← hchunk]
            exact wavChunkEffect_total _ _ _ _ _ h0
          · simp
          · have hbd := getU32_ok_bound (by assumption)
            apply ih
            · split <;> omega
            · split <;> omega
      · simp
    · simp

theorem parseMP3_total (buf : Buf) (dflt : Metadata) : (parseMP3 buf dflt).isSome := by
  unfold parseMP3
  repeat' split
  all_goals try rfl
  all_goals unfold mp3Tail
  all_goals split
  all_goals try rfl
  all_goals rename_i hnone
  all_goals rw [← hnone]
  all_goals apply mp3Go_total
  all_goals omega

theorem parseFLAC_total (buf : Buf) (dflt : Metadata) (hb : ∀ x ∈ buf, x < 256) :
    (parseFLAC buf dflt).isSome := by
  unfold parseFLAC
  repeat' split
  all_goals try rfl
  all_goals apply flacGo_total hb
  all_goals omega

theorem parseWAV_total (buf : Buf) (dflt : Metadata) : (parseWAV buf dflt).isSome := by
  unfold parseWAV
  repeat' split
  all_goals try rfl
  all_goals apply wavGo_total
  all_goals omega

theorem isSome_ne_none {α : Type} {o : Option α} (h : o.isSome) : o ≠ none := by
  cases o
  · cases h
  · exact fun hc => Option.noConfusion hc

theorem m4aParse_total (buf : Buf) : (m4aParse buf).isSome := by
  unfold m4aParse
  split
  · rename_i hnone
    exact absurd hnone (isSome_ne_none (m4aStep_total _ _
      (by simp only [M4AFrame.off]; omega) (by simp only [m4aNeed]; omega)))
  · rfl
  · rfl

theorem parseM4A_total (buf : Buf) (dflt : Metadata) : (parseM4A buf dflt).isSome := by
  unfold parseM4A
  split
  · rename_i hnone
    exact absurd hnone (isSome_ne_none (m4aParse_total buf))
  · rfl
  · rfl

theorem parseMetadata_total (buf : Buf) (p : JStr) (hb : ∀ x ∈ buf, x < 256) :
    (parseMetadata buf p).isSome := by
  unfold parseMetadata
  split
  · unfold catchDefault
    split
    · rename_i hnone
      exact absurd hnone (isSome_ne_none (parseMP3_total buf _))
    · rfl
    · rfl
  · split
    · unfold catchDefault
      split
      · rename_i hnone
        exact absurd hnone (isSome_ne_none (parseFLAC_total buf _ hb))
      · rfl
      · rfl
    · split
      · exact parseM4A_total buf _
      · split
        · unfold catchDefault
          split
          · rename_i hnone
            exact absurd hnone (isSome_ne_none (parseWAV_total buf _))
          · rfl
          · rfl
        · rfl


/-- C2: for every byte buffer and every filename, `parseMetadata`
terminates and produces a record: every chunk/block/frame/atom loop either
advances its offset (WAV chunks by at least 8 bytes, FLAC blocks by at
least 4, MP3 frames by at least 7, M4A atoms by at least 1 after the
zero-size break) or breaks, and the atom walker recursion is bounded by the
buffer length, so the fuel supplied in the embedding is never exhausted. -/
theorem parseMetadata_terminates (buf : Buf) (p : JStr) (hb : ∀ x ∈ buf, x < 256) :
    (parseMetadata buf p).isSome :=
  parseMetadata_total buf p hb

theorem parseMetadata_terminates_witness :
    (∀ x ∈ ([] : Buf), x < 256) ∧ (parseMetadata [] (jstr "b.flac")).isSome :=
  ⟨by decide, parseMetadata_terminates [] (jstr "b.flac") (by decide)⟩
